import Mathlib

/-!
Shallow embedding of the warehouse-incentives scoring and ranking engine
(src/app.py: picker_api_stats, supervisor_api_rankings, supervisor_download).
The global USE_POSTGRES flag selects between the two query texts of each
route; it is threaded through as a Bool parameter, so both backends'
aggregation shapes are covered.

Modelling conventions:
* Instants are integers: microseconds since 2020-01-01T00:00:00 (a Wednesday),
  the proleptic timeline of Python naive datetimes.  `datetime.replace` to
  midnight is flooring to a day boundary; `strftime('%Y-%m-%d %H:%M:%S')` is
  flooring to a second boundary; lexicographic comparison of the produced
  timestamp strings agrees with numeric comparison on this timeline.
* SQL `LOWER` / Python `str.lower()` are modelled for ASCII data by `lowerStr`.
* SQL `AVG(score)` is modelled exactly as the pair (sum of scores, row count)
  (`MeanAcc`), whose rational value `MeanAcc.q` is the `daily_avg` float of the
  code; threshold tests `score > avg * 1.05` / `score >= avg * 0.95` are the
  equivalent cross-multiplied integer comparisons.
* Roster display metadata joined into responses (name, date of joining,
  age_in_days, per-row cohort echo) is independent of the event aggregation
  and is omitted from the embedded result records.
-/

/-- Microseconds in one second. -/
def usPerSec : Int := 1000000

/-- Microseconds in one day. -/
def usPerDay : Int := 86400000000

/-- Epoch floor used by the all_time filter: 2020-01-01T00:00:00 is 0 on our
timeline. -/
def epoch2020 : Int := 0

/-- Python `now.replace(hour=0, minute=0, second=0, microsecond=0)`: floor to
the start of the day containing the instant. -/
def midnight (t : Int) : Int := t - t.emod usPerDay

/-- Python `x.replace(hour=23, minute=59, second=59, microsecond=999999)`:
last microsecond of the day containing the instant. -/
def endOfDay (t : Int) : Int := midnight t + usPerDay - 1

/-- Python `now.weekday()`: Monday = 0.  2020-01-01 (day index 0) was a
Wednesday (index 2). -/
def weekdayIndex (t : Int) : Int := (t.ediv usPerDay + 2).emod 7

/-- Python `strftime('%Y-%m-%d %H:%M:%S')` drops the microsecond field: floor
to the second boundary. -/
def truncToSecond (t : Int) : Int := t - t.emod usPerSec

/-- Time-window resolution of the routes (the if/elif chain on the filter
token), before string formatting. -/
def resolveWindow (tf : String) (now : Int) : Int × Int :=
  if tf = "today" then (midnight now, now)
  else if tf = "yesterday" then (midnight (now - usPerDay), endOfDay (now - usPerDay))
  else if tf = "this_week" then (midnight (now - weekdayIndex now * usPerDay), now)
  else if tf = "last_week" then
    (midnight (now - (weekdayIndex now + 7) * usPerDay),
     endOfDay (now - (weekdayIndex now + 7) * usPerDay + 6 * usPerDay))
  else if tf = "all_time" then (epoch2020, now)
  else (midnight now, now)

/-- The bounds actually used in the SQL queries: both endpoints serialized by
strftime at second precision. -/
def queryWindow (tf : String) (now : Int) : Int × Int :=
  ((resolveWindow tf now).1 - (resolveWindow tf now).1.emod usPerSec,
   (resolveWindow tf now).2 - (resolveWindow tf now).2.emod usPerSec)

/-- SQL `updated_at >= start AND updated_at <= end`. -/
def inWindow (w : Int × Int) (t : Int) : Bool := decide (w.1 ≤ t) && decide (t ≤ w.2)

/-- ASCII lowercase of a character (SQL LOWER / str.lower() on ASCII data). -/
def lowerChar (c : Char) : Char :=
  if 65 ≤ c.toNat ∧ c.toNat ≤ 90 then Char.ofNat (c.toNat + 32) else c

/-- ASCII lowercase of a string. -/
def lowerStr (s : String) : String := String.mk (s.data.map lowerChar)

/-- One row of the items table, restricted to the columns the ranking engine
reads (source_warehouse, dispatch_by_date, location data, provenance are
never consulted by these queries). -/
structure Event where
  picker_id : String
  item_status : String
  external_picklist_id : String
  updated_at : Int
deriving DecidableEq

/-- SQL `item_status IN ('COMPLETED', 'ITEM_REPLACED')`. -/
def isPicked (e : Event) : Bool :=
  e.item_status == "COMPLETED" || e.item_status == "ITEM_REPLACED"

/-- SQL `item_status = 'ITEM_NOT_FOUND'`. -/
def isLost (e : Event) : Bool := e.item_status == "ITEM_NOT_FOUND"

/-- SQL `LOWER(picker_id)` of a row. -/
def lowId (e : Event) : String := lowerStr e.picker_id

/-- The grouping key of `GROUP BY LOWER(picker_id), picker_id`. -/
def pairId (e : Event) : String × String := (lowerStr e.picker_id, e.picker_id)

/-- Rows of the window filter `updated_at >= ? AND updated_at <= ?`. -/
def eventsInWindow (w : Int × Int) (events : List Event) : List Event :=
  events.filter (fun e => inWindow w e.updated_at)

/-- Rows of the scope filter `LOWER(picker_id) IN (members)`; members are the
already-lowercased picker ids of the scoped users. -/
def memberEvents (ms : List String) (events : List Event) : List Event :=
  events.filter (fun e => decide (lowId e ∈ ms))

/-- First occurrences of a list, in order (the distinct grouping keys, in the
order the grouped rows are produced; likewise `COUNT(DISTINCT ...)`). -/
def dedupFirst {α : Type} [DecidableEq α] : List α → List α
  | [] => []
  | x :: xs => x :: (dedupFirst xs).filter (fun y => decide (y ≠ x))

/-- One grouped aggregate row: items_picked counts COMPLETED/ITEM_REPLACED,
items_lost counts ITEM_NOT_FOUND, unique_picklists counts distinct
external_picklist_id; the SELECTed score column equals items_picked. -/
structure AggRow where
  picker_id : String
  items_picked : Nat
  items_lost : Nat
  unique_picklists : Nat
deriving DecidableEq

/-- The score column (`COUNT(CASE WHEN item_status IN (...) THEN 1 END)`),
identical to items_picked. -/
def AggRow.score (r : AggRow) : Nat := r.items_picked

def defaultRow : AggRow := ⟨"", 0, 0, 0⟩

/-- The group of rows with a given lowered picker id. -/
def groupL (es : List Event) (k : String) : List Event :=
  es.filter (fun e => lowId e == k)

/-- Aggregate row of one `GROUP BY LOWER(picker_id)` group.  SQLite returns
the bare picker_id of an unspecified row of the group; we determinize to the
first row's casing (no query result depends on which is chosen). -/
def aggLowerRow (es : List Event) (k : String) : AggRow :=
  { picker_id := match (groupL es k).head? with
      | some e => e.picker_id
      | none => k
    items_picked := ((groupL es k).filter isPicked).length
    items_lost := ((groupL es k).filter isLost).length
    unique_picklists := (dedupFirst ((groupL es k).map Event.external_picklist_id)).length }

/-- SQL `... GROUP BY LOWER(picker_id)` over the given rows: the SQLite
variants of the cohort-scoped aggregates, and every AVG subquery on both
backends.  The USE_POSTGRES cohort aggregates instead group by
(LOWER(picker_id), picker_id) — see `aggPair`. -/
def aggLower (es : List Event) : List AggRow :=
  (dedupFirst (es.map lowId)).map (aggLowerRow es)

/-- The group of rows with a given (lowered id, exact id) pair. -/
def groupP (es : List Event) (k : String × String) : List Event :=
  es.filter (fun e => pairId e == k)

/-- Aggregate row of one `GROUP BY LOWER(picker_id), picker_id` group. -/
def aggPairRow (es : List Event) (k : String × String) : AggRow :=
  { picker_id := k.2
    items_picked := ((groupP es k).filter isPicked).length
    items_lost := ((groupP es k).filter isLost).length
    unique_picklists := (dedupFirst ((groupP es k).map Event.external_picklist_id)).length }

/-- SQL `... GROUP BY LOWER(picker_id), picker_id` over the given rows: the
no-cohort leaderboard query of picker_api_stats (identical on both backends)
and the USE_POSTGRES variants of the cohort-scoped aggregates.  Case
variants of an id form separate groups here. -/
def aggPair (es : List Event) : List AggRow :=
  (dedupFirst (es.map pairId)).map (aggPairRow es)

/-- Stable insertion for descending sort by score: an element is placed before
the first strictly smaller score, after all equal scores. -/
def insertDesc (r : AggRow) : List AggRow → List AggRow
  | [] => [r]
  | x :: xs => if x.score < r.score then r :: x :: xs else x :: insertDesc r xs

/-- SQL `ORDER BY score DESC` (equivalently `ORDER BY items_picked DESC`):
stable descending sort, ties kept in grouped-row order. -/
def sortDesc : List AggRow → List AggRow
  | [] => []
  | x :: xs => insertDesc x (sortDesc xs)

/-- Exact value of SQL `AVG(score)` over the grouped subquery: sum of scores
and row count.  The code's daily_avg float is the quotient `MeanAcc.q`;
`AVG` of an empty set is NULL, which the code replaces by 0 (cnt = 0 here). -/
structure MeanAcc where
  sum : Nat
  cnt : Nat
deriving DecidableEq

/-- The rational value of the average (0 when the row set is empty, matching
the code's NULL-to-0 fallback, since x / 0 = 0 in ℚ). -/
def MeanAcc.q (m : MeanAcc) : ℚ := (m.sum : ℚ) / (m.cnt : ℚ)

/-- AVG accumulator of a grouped aggregate. -/
def meanAcc (rows : List AggRow) : MeanAcc :=
  ⟨(rows.map AggRow.score).sum, rows.length⟩

/-- Status classification of the routes: with daily_avg = sum/cnt, the float
tests `score > daily_avg * 1.05`, `score >= daily_avg * 0.95` and the guard
`daily_avg > 0` are written as the equivalent integer comparisons
(cross-multiplied by 20 * cnt > 0). -/
def statusColor (score : Nat) (m : MeanAcc) : String :=
  if 0 < m.sum ∧ 0 < m.cnt then
    if 21 * m.sum < 20 * score * m.cnt then "green"
    else if 19 * m.sum ≤ 20 * score * m.cnt then "yellow"
    else "red"
  else "yellow"

/-- One entry of a ranked response payload (leaderboard / rankings list). -/
structure RankEntry where
  rank : Nat
  picker_id : String
  items_picked : Nat
  items_lost : Nat
  unique_picklists : Nat
  score : Nat
  status_color : String
deriving DecidableEq

/-- Payload entry for one aggregate row at 1-based position n. -/
def rankEntryOf (m : MeanAcc) (n : Nat) (p : AggRow) : RankEntry :=
  ⟨n, p.picker_id, p.items_picked, p.items_lost, p.unique_picklists,
   p.items_picked, statusColor p.items_picked m⟩

/-- The `for idx, picker in enumerate(...)` loop building payload entries with
`rank = idx + 1`, starting at rank n. -/
def rankFrom (m : MeanAcc) (n : Nat) : List AggRow → List RankEntry
  | [] => []
  | p :: ps => rankEntryOf m n p :: rankFrom m (n + 1) ps

/-- One user row of the users table (columns the supervisor routes read). -/
structure User where
  picker_id : String
  role : String
  cohort : Option Int
deriving DecidableEq

/-- Model of Python `int(str)` on ASCII input: optional surrounding
whitespace, an optional sign, then digits optionally separated by single
underscores.  Returns none exactly when `int()` raises ValueError. -/
def asciiSpace (c : Char) : Bool :=
  c == ' ' || c == '\t' || c == '\n' || c == '\r' || c == '\x0b' || c == '\x0c'

/-- Digit run continuation: digits with single underscores between digits. -/
def digitsRest (acc : Nat) : List Char → Option Nat
  | [] => some acc
  | '_' :: c :: cs =>
      if c.isDigit then digitsRest (acc * 10 + (c.toNat - 48)) cs else none
  | c :: cs =>
      if c.isDigit then digitsRest (acc * 10 + (c.toNat - 48)) cs else none

/-- Nonempty underscore-separated digit run. -/
def digitsRun : List Char → Option Nat
  | [] => none
  | c :: cs => if c.isDigit then digitsRest (c.toNat - 48) cs else none

/-- Python `int(s)` (ASCII model). -/
def pythonInt (s : String) : Option Int :=
  let cs := (((s.data.dropWhile asciiSpace).reverse.dropWhile asciiSpace).reverse)
  match cs with
  | '+' :: rest => (digitsRun rest).map (fun n => (n : Int))
  | '-' :: rest => (digitsRun rest).map (fun n => -(n : Int))
  | _ => (digitsRun cs).map (fun n => (n : Int))

/-- The cohort selector after the `show_all` test and the int() coercion with
its ValueError-to-1 fallback. -/
inductive CohortSel
  | all
  | num (n : Int)
deriving DecidableEq

/-- Lines 663-673 / 908-917: `cohort == 'all'`, otherwise `int(cohort)`
falling back to 1 on ValueError. -/
def parseCohort (s : String) : CohortSel :=
  if s == "all" then .all
  else match pythonInt s with
    | some n => .num n
    | none => .num 1

/-- The users query of the supervisor routes: all pickers for 'all', else the
users of the selected cohort; collected as lowercased picker ids. -/
def cohortMembers (sel : CohortSel) (users : List User) : List String :=
  match sel with
  | .all => (users.filter (fun u => u.role == "picker")).map (fun u => lowerStr u.picker_id)
  | .num n => (users.filter (fun u => u.cohort == some n)).map (fun u => lowerStr u.picker_id)

/-- The cohort field echoed in the response. -/
def cohortEcho : CohortSel → String
  | .all => "all"
  | .num n => toString n

/-- Supervisor rankings response. -/
structure SupervisorOut where
  rankings : List RankEntry
  avg : MeanAcc
  total_pickers : Nat
  cohort_echo : String
deriving DecidableEq

/-- Lines 725-836 of supervisor_api_rankings: empty member set returns the
empty payload without touching the items table; otherwise aggregate the
members' in-window rows — grouped by (LOWER(picker_id), picker_id) under
USE_POSTGRES (lines 736-747), by LOWER(picker_id) alone under SQLite (lines
749-762) — sort by items_picked descending, average over the
LOWER(picker_id)-grouped set (both backends, lines 767-794), and classify
each entry. -/
def supervisorRankingsCore (usePostgres : Bool) (ms : List String) (tf : String)
    (now : Int) (events : List Event) : List RankEntry × MeanAcc :=
  if ms.isEmpty then ([], ⟨0, 0⟩)
  else
    let es := memberEvents ms (eventsInWindow (queryWindow tf now) events)
    let m := meanAcc (aggLower es)
    (rankFrom m 1 (sortDesc (if usePostgres then aggPair es else aggLower es)), m)

/-- The /supervisor/api/rankings endpoint, on the backend selected by
USE_POSTGRES. -/
def supervisorApiRankings (usePostgres : Bool) (selector : String) (users : List User)
    (tf : String) (now : Int) (events : List Event) : SupervisorOut :=
  let sel := parseCohort selector
  let core := supervisorRankingsCore usePostgres (cohortMembers sel users) tf now events
  ⟨core.1, core.2, core.1.length, cohortEcho sel⟩

/-- Header row of the CSV download. -/
def csvHeader : List String :=
  ["Rank", "Picker ID", "Name", "Cohort", "Age (Days)", "Picklists",
   "Items Picked", "Items Lost", "Score"]

/-- One data row of the CSV download (roster display columns omitted, see
module comment). -/
structure CsvRow where
  rank : Nat
  picker_id : String
  unique_picklists : Nat
  items_picked : Nat
  items_lost : Nat
  score : Nat
deriving DecidableEq

/-- The `for idx, row in enumerate(rows, 1)` CSV writer loop. -/
def csvRowsFrom (n : Nat) : List AggRow → List CsvRow
  | [] => []
  | p :: ps =>
      ⟨n, p.picker_id, p.unique_picklists, p.items_picked, p.items_lost,
       p.items_picked⟩ :: csvRowsFrom (n + 1) ps

/-- The /supervisor/download endpoint: header plus one row per ranked
aggregate — grouped by (LOWER(picker_id), picker_id) under USE_POSTGRES
(lines 983-994), by LOWER(picker_id) alone under SQLite (lines 997-1008); an
empty member set yields the header-only table before any items query. -/
def supervisorDownloadTable (usePostgres : Bool) (selector : String) (users : List User)
    (tf : String) (now : Int) (events : List Event) : List String × List CsvRow :=
  let ms := cohortMembers (parseCohort selector) users
  if ms.isEmpty then (csvHeader, [])
  else
    (csvHeader,
     csvRowsFrom 1 (sortDesc
       (if usePostgres
        then aggPair (memberEvents ms (eventsInWindow (queryWindow tf now) events))
        else aggLower (memberEvents ms (eventsInWindow (queryWindow tf now) events)))))

/-- Lines 456-503: the all-pickers list of picker_api_stats.  With a cohort
whose member list is nonempty, the USE_POSTGRES query (lines 461-473) groups
the members' rows by (LOWER(picker_id), picker_id) while the SQLite query
(lines 475-489) groups by LOWER(picker_id) alone; without a cohort the
fallback query (lines 492-503, identical on both backends) groups all rows
by LOWER(picker_id), picker_id. -/
def pickerRankedRows (usePostgres : Bool) (cohort : Option (List String)) (w : Int × Int)
    (events : List Event) : List AggRow :=
  match cohort with
  | some ms =>
      if ms.isEmpty then sortDesc (aggPair (eventsInWindow w events))
      else
        sortDesc (if usePostgres then aggPair (memberEvents ms (eventsInWindow w events))
                  else aggLower (memberEvents ms (eventsInWindow w events)))
  | none => sortDesc (aggPair (eventsInWindow w events))

/-- Lines 531-575: the rows of the AVG subquery of picker_api_stats (grouped
by LOWER(picker_id) alone on both backends). -/
def pickerMeanRows (cohort : Option (List String)) (w : Int × Int)
    (events : List Event) : List AggRow :=
  match cohort with
  | some ms =>
      if ms.isEmpty then aggLower (eventsInWindow w events)
      else aggLower (memberEvents ms (eventsInWindow w events))
  | none => aggLower (eventsInWindow w events)

/-- Lines 507-529: the rank/items_to_next_rank/difference_from_first loop over
the sorted list, given the requesting picker's own items_picked and lowered
id.  Rank 0 is the unranked sentinel. -/
def rankCalc (rows : List AggRow) (ownScore : Nat) (pl : String) : Nat × Int × Int :=
  match List.findIdx? (fun p => lowerStr p.picker_id == pl) rows with
  | some idx =>
      (idx + 1,
       if 0 < idx then ((rows.getD (idx - 1) defaultRow).score : Int) - (ownScore : Int) + 1 else 0,
       if 0 < rows.length then ((rows.headD defaultRow).score : Int) - (ownScore : Int) else 0)
  | none =>
      (0, 0,
       if ownScore = 0 ∧ 0 < rows.length then ((rows.headD defaultRow).score : Int) else 0)

/-- Picker stats response (roster metadata fields omitted, see module
comment). -/
structure PickerStatsOut where
  items_picked : Nat
  items_lost : Nat
  unique_picklists : Nat
  score : Nat
  rank : Nat
  total_pickers : Nat
  items_to_next_rank : Int
  difference_from_first : Int
  avg : MeanAcc
  status_color : String
  leaderboard : List RankEntry
deriving DecidableEq

/-- Body of picker_api_stats for an already-lowercased requesting id, on the
backend selected by USE_POSTGRES. -/
def pickerStatsLow (usePostgres : Bool) (pl : String) (cohort : Option (List String))
    (tf : String) (now : Int) (events : List Event) : PickerStatsOut :=
  let w := queryWindow tf now
  let own := (eventsInWindow w events).filter (fun e => lowId e == pl)
  let ip := (own.filter isPicked).length
  let il := (own.filter isLost).length
  let up := (dedupFirst (own.map Event.external_picklist_id)).length
  let rows := pickerRankedRows usePostgres cohort w events
  let m := meanAcc (pickerMeanRows cohort w events)
  let rc := rankCalc rows ip pl
  ⟨ip, il, up, ip, rc.1, rows.length, rc.2.1, rc.2.2, m,
   statusColor ip m, (rankFrom m 1 rows).take 15⟩

/-- The /picker/api/stats endpoint: every use of the requesting picker's id
goes through LOWER. -/
def pickerApiStats (usePostgres : Bool) (pid : String) (cohort : Option (List String))
    (tf : String) (now : Int) (events : List Event) : PickerStatsOut :=
  pickerStatsLow usePostgres (lowerStr pid) cohort tf now events

/-! Helper lemmas about `dedupFirst`, filtered sums, and grouping. -/

theorem mem_dedupFirst {α : Type} [DecidableEq α] {a : α} :
    ∀ {l : List α}, a ∈ dedupFirst l ↔ a ∈ l
  | [] => Iff.rfl
  | x :: xs => by
    simp only [dedupFirst, List.mem_cons, List.mem_filter, decide_eq_true_eq]
    constructor
    · rintro (rfl | ⟨h, _⟩)
      · exact Or.inl rfl
      · exact Or.inr (mem_dedupFirst.mp h)
    · rintro (rfl | h)
      · exact Or.inl rfl
      · by_cases hax : a = x
        · exact Or.inl hax
        · exact Or.inr ⟨mem_dedupFirst.mpr h, hax⟩

theorem dedupFirst_nodup {α : Type} [DecidableEq α] :
    ∀ (l : List α), (dedupFirst l).Nodup
  | [] => List.nodup_nil
  | x :: xs => by
    simp only [dedupFirst]
    refine List.Nodup.cons ?_ (List.Nodup.filter _ (dedupFirst_nodup xs))
    intro hx
    rcases List.mem_filter.mp hx with ⟨-, hne⟩
    exact (decide_eq_true_eq.mp hne) rfl

theorem dedupFirst_eq_nil {α : Type} [DecidableEq α] {l : List α} :
    dedupFirst l = [] ↔ l = [] := by
  cases l with
  | nil => simp [dedupFirst]
  | cons x xs => simp [dedupFirst]

theorem sum_map_ite_of_not_mem {α : Type} [DecidableEq α] {a : α} :
    ∀ {keys : List α}, a ∉ keys →
      (keys.map (fun k => if a = k then (1 : Nat) else 0)).sum = 0
  | [], _ => rfl
  | k :: ks, h => by
    have hne : a ≠ k := fun hak => h (hak ▸ List.mem_cons_self k ks)
    have hks : a ∉ ks := fun hm => h (List.mem_cons_of_mem k hm)
    simp [hne, sum_map_ite_of_not_mem hks]

theorem sum_map_ite_of_mem {α : Type} [DecidableEq α] {a : α} :
    ∀ {keys : List α}, keys.Nodup → a ∈ keys →
      (keys.map (fun k => if a = k then (1 : Nat) else 0)).sum = 1
  | [], _, hm => absurd hm (List.not_mem_nil a)
  | k :: ks, hnd, hm => by
    rcases List.mem_cons.mp hm with rfl | hmem
    · have hout : a ∉ ks := (List.nodup_cons.mp hnd).1
      simp [sum_map_ite_of_not_mem hout]
    · have hne : a ≠ k := by
        rintro rfl
        exact (List.nodup_cons.mp hnd).1 hmem
      simp [hne, sum_map_ite_of_mem (List.nodup_cons.mp hnd).2 hmem]

theorem sum_filter_by_key {α κ : Type} [DecidableEq κ] (P : α → Bool) (kf : α → κ)
    (keys : List κ) :
    ∀ (es : List α), keys.Nodup → (∀ e ∈ es, P e = true → kf e ∈ keys) →
      (keys.map (fun k => (es.filter (fun e => P e && (kf e == k))).length)).sum
        = (es.filter P).length
  | [], _, _ => by simp
  | e :: es, hnd, hcov => by
    have hrest := sum_filter_by_key P kf keys es hnd
      (fun x hx hp => hcov x (List.mem_cons_of_mem e hx) hp)
    by_cases hP : P e = true
    · have hk : kf e ∈ keys := hcov e (List.mem_cons_self e es) hP
      have hsplit :
          (keys.map (fun k => ((e :: es).filter (fun x => P x && (kf x == k))).length)).sum
            = (keys.map (fun k => (if kf e = k then (1 : Nat) else 0)
                + (es.filter (fun x => P x && (kf x == k))).length)).sum := by
        refine congrArg List.sum (List.map_congr_left ?_)
        intro k _
        by_cases hek : kf e = k
        · simp only [List.filter_cons, hP, hek, if_pos, beq_self_eq_true,
            Bool.true_and, Bool.and_true, if_true, List.length_cons]
          omega
        · have : (kf e == k) = false := beq_false_of_ne hek
          simp [List.filter_cons, hP, this, hek]
      rw [hsplit, List.sum_map_add, sum_map_ite_of_mem hnd hk, hrest,
        List.filter_cons, hP]
      simp only [if_true, List.length_cons]
      omega
    · have hsplit :
          (keys.map (fun k => ((e :: es).filter (fun x => P x && (kf x == k))).length)).sum
            = (keys.map (fun k => (es.filter (fun x => P x && (kf x == k))).length)).sum := by
        refine congrArg List.sum (List.map_congr_left ?_)
        intro k _
        simp [List.filter_cons, hP]
      rw [hsplit, hrest, List.filter_cons]
      simp [hP]

theorem filter_and_nil {α : Type} {P : α → Bool} {es : List α} (q : α → Bool)
    (h : es.filter P = []) : es.filter (fun e => P e && q e) = [] := by
  rw [List.eq_nil_iff_forall_not_mem]
  intro a ha
  rcases List.mem_filter.mp ha with ⟨hmem, hb⟩
  have hP : P a = true := ((Bool.and_eq_true _ _).mp hb).1
  have : a ∈ es.filter P := List.mem_filter.mpr ⟨hmem, hP⟩
  rw [h] at this
  exact List.not_mem_nil a this

theorem sum_score_aggLower (es : List Event) :
    ((aggLower es).map AggRow.score).sum = (es.filter isPicked).length := by
  have h1 : (aggLower es).map AggRow.score
      = (dedupFirst (es.map lowId)).map
          (fun k => (es.filter (fun e => isPicked e && (lowId e == k))).length) := by
    rw [aggLower, List.map_map]
    refine List.map_congr_left ?_
    intro k _
    show ((groupL es k).filter isPicked).length = _
    rw [groupL, List.filter_filter]
  rw [h1]
  exact sum_filter_by_key isPicked lowId _ es (dedupFirst_nodup _)
    (fun e he _ => mem_dedupFirst.mpr (List.mem_map_of_mem lowId he))

theorem aggLower_eq_nil {es : List Event} : aggLower es = [] ↔ es = [] := by
  rw [aggLower, List.map_eq_nil, dedupFirst_eq_nil, List.map_eq_nil]

theorem aggPair_eq_nil {es : List Event} : aggPair es = [] ↔ es = [] := by
  rw [aggPair, List.map_eq_nil, dedupFirst_eq_nil, List.map_eq_nil]

theorem score_aggLowerRow_of_no_picked {es : List Event}
    (h : es.filter isPicked = []) (k : String) : (aggLowerRow es k).score = 0 := by
  show ((groupL es k).filter isPicked).length = 0
  rw [groupL, List.filter_filter, List.length_eq_zero]
  exact filter_and_nil _ h

theorem score_aggPairRow_of_no_picked {es : List Event}
    (h : es.filter isPicked = []) (k : String × String) : (aggPairRow es k).score = 0 := by
  show ((groupP es k).filter isPicked).length = 0
  rw [groupP, List.filter_filter, List.length_eq_zero]
  exact filter_and_nil _ h

theorem no_picked_of_sum_zero {es : List Event}
    (h : (meanAcc (aggLower es)).sum = 0) : es.filter isPicked = [] := by
  have h2 : ((aggLower es).map AggRow.score).sum = 0 := h
  rw [sum_score_aggLower] at h2
  exact List.length_eq_zero.mp h2

theorem exists_event_of_mem_dedup_lowId {es : List Event} {k : String}
    (hk : k ∈ dedupFirst (es.map lowId)) : ∃ e ∈ es, lowId e = k :=
  List.mem_map.mp (mem_dedupFirst.mp hk)

theorem lowerStr_picker_aggLowerRow {es : List Event} {k : String}
    (hk : k ∈ dedupFirst (es.map lowId)) :
    lowerStr (aggLowerRow es k).picker_id = k := by
  rcases exists_event_of_mem_dedup_lowId hk with ⟨e, he, hek⟩
  have hmem : e ∈ groupL es k := List.mem_filter.mpr ⟨he, beq_iff_eq.mpr hek⟩
  cases hg : groupL es k with
  | nil => rw [hg] at hmem; exact absurd hmem (List.not_mem_nil e)
  | cons a as =>
    have ha : a ∈ groupL es k := by rw [hg]; exact List.mem_cons_self a as
    have hak : lowId a = k := beq_iff_eq.mp (List.mem_filter.mp ha).2
    show lowerStr (aggLowerRow es k).picker_id = k
    simp only [aggLowerRow, hg, List.head?_cons]
    exact hak

theorem lowerStr_picker_aggPairRow {es : List Event} {k : String × String}
    (hk : k ∈ dedupFirst (es.map pairId)) :
    lowerStr (aggPairRow es k).picker_id = k.1 := by
  rcases List.mem_map.mp (mem_dedupFirst.mp hk) with ⟨e, _, hek⟩
  show lowerStr k.2 = k.1
  rw [← hek]
  rfl

/-! Lemmas about the stable descending sort. -/

theorem mem_insertDesc {r x : AggRow} :
    ∀ (l : List AggRow), x ∈ insertDesc r l ↔ x = r ∨ x ∈ l
  | [] => by simp [insertDesc]
  | y :: ys => by
    by_cases h : y.score < r.score
    · simp only [insertDesc, if_pos h, List.mem_cons]
      try tauto
    · simp only [insertDesc, if_neg h, List.mem_cons,
        mem_insertDesc ys]
      try tauto

theorem mem_sortDesc {x : AggRow} : ∀ (l : List AggRow), x ∈ sortDesc l ↔ x ∈ l
  | [] => Iff.rfl
  | y :: ys => by
    simp only [sortDesc, mem_insertDesc, List.mem_cons, mem_sortDesc ys]

theorem pairwise_insertDesc {r : AggRow} :
    ∀ {l : List AggRow}, l.Pairwise (fun a b => b.score ≤ a.score) →
      (insertDesc r l).Pairwise (fun a b => b.score ≤ a.score)
  | [], _ => by simp [insertDesc]
  | y :: ys, hp => by
    rcases List.pairwise_cons.mp hp with ⟨hy, hys⟩
    by_cases h : y.score < r.score
    · simp only [insertDesc, if_pos h]
      refine List.pairwise_cons.mpr ⟨?_, hp⟩
      intro b hb
      rcases List.mem_cons.mp hb with rfl | hbys
      · exact Nat.le_of_lt h
      · exact le_trans (hy b hbys) (Nat.le_of_lt h)
    · simp only [insertDesc, if_neg h]
      refine List.pairwise_cons.mpr ⟨?_, pairwise_insertDesc hys⟩
      intro b hb
      rcases (mem_insertDesc _).mp hb with rfl | hbys
      · exact Nat.le_of_not_lt h
      · exact hy b hbys

theorem pairwise_sortDesc :
    ∀ (l : List AggRow), (sortDesc l).Pairwise (fun a b => b.score ≤ a.score)
  | [] => List.Pairwise.nil
  | y :: ys => pairwise_insertDesc (pairwise_sortDesc ys)

/-! Lemmas about the rank-assignment loops and the find loop. -/

def defaultEntry : RankEntry := ⟨0, "", 0, 0, 0, 0, ""⟩

def defaultCsv : CsvRow := ⟨0, "", 0, 0, 0, 0⟩

theorem length_rankFrom (m : MeanAcc) :
    ∀ (n : Nat) (l : List AggRow), (rankFrom m n l).length = l.length
  | _, [] => rfl
  | n, p :: ps => by
    simp only [rankFrom, List.length_cons, length_rankFrom m (n + 1) ps]

theorem getD_rankFrom (m : MeanAcc) :
    ∀ (n : Nat) (l : List AggRow) (i : Nat), i < l.length →
      (rankFrom m n l).getD i defaultEntry = rankEntryOf m (n + i) (l.getD i defaultRow)
  | _, [], i, hi => absurd hi (by simp)
  | n, p :: ps, 0, _ => by simp [rankFrom]
  | n, p :: ps, i + 1, hi => by
    have ih := getD_rankFrom m (n + 1) ps i (Nat.lt_of_succ_lt_succ hi)
    simp only [rankFrom, List.getD_cons_succ]
    rw [ih]
    have : n + 1 + i = n + (i + 1) := by omega
    rw [this]

theorem mem_rankFrom {m : MeanAcc} {r : RankEntry} :
    ∀ {n : Nat} {l : List AggRow}, r ∈ rankFrom m n l →
      ∃ p ∈ l, r.score = p.items_picked ∧ r.status_color = statusColor p.items_picked m
  | _, [], h => absurd h (List.not_mem_nil r)
  | n, p :: ps, h => by
    rcases List.mem_cons.mp h with rfl | hmem
    · exact ⟨p, List.mem_cons_self p ps, rfl, rfl⟩
    · rcases mem_rankFrom hmem with ⟨p2, hp2, h1, h2⟩
      exact ⟨p2, List.mem_cons_of_mem p hp2, h1, h2⟩

theorem length_csvRowsFrom :
    ∀ (n : Nat) (l : List AggRow), (csvRowsFrom n l).length = l.length
  | _, [] => rfl
  | n, p :: ps => by
    simp only [csvRowsFrom, List.length_cons, length_csvRowsFrom (n + 1) ps]

theorem getD_csvRowsFrom :
    ∀ (n : Nat) (l : List AggRow) (i : Nat), i < l.length →
      (csvRowsFrom n l).getD i defaultCsv
        = ⟨n + i, (l.getD i defaultRow).picker_id, (l.getD i defaultRow).unique_picklists,
           (l.getD i defaultRow).items_picked, (l.getD i defaultRow).items_lost,
           (l.getD i defaultRow).items_picked⟩
  | _, [], i, hi => absurd hi (by simp)
  | n, p :: ps, 0, _ => by simp [csvRowsFrom]
  | n, p :: ps, i + 1, hi => by
    have ih := getD_csvRowsFrom (n + 1) ps i (Nat.lt_of_succ_lt_succ hi)
    simp only [csvRowsFrom, List.getD_cons_succ]
    rw [ih]
    have : n + 1 + i = n + (i + 1) := by omega
    rw [this]

theorem sortDesc_getD_sorted (l : List AggRow) (i j : Nat) (hij : i ≤ j)
    (hj : j < (sortDesc l).length) :
    ((sortDesc l).getD j defaultRow).score ≤ ((sortDesc l).getD i defaultRow).score := by
  have hi : i < (sortDesc l).length := lt_of_le_of_lt hij hj
  rw [List.getD_eq_get _ _ hj, List.getD_eq_get _ _ hi]
  rcases Nat.lt_or_ge i j with hlt | hge
  · exact List.pairwise_iff_get.mp (pairwise_sortDesc l) ⟨i, hi⟩ ⟨j, hj⟩ hlt
  · have : i = j := Nat.le_antisymm hij hge
    subst this
    exact le_refl _

theorem findIdx?_eq_none_of_all {α : Type} (p : α → Bool) :
    ∀ (l : List α) (i : Nat), (∀ x ∈ l, p x = false) → List.findIdx? p l i = none
  | [], _, _ => rfl
  | x :: xs, i, h => by
    rw [List.findIdx?_cons, h x (List.mem_cons_self x xs)]
    simp only [Bool.false_eq_true, if_false]
    rw [findIdx?_eq_none_of_all p xs (i + 1)
      (fun y hy => h y (List.mem_cons_of_mem x hy))]

theorem findIdx?_ge {α : Type} (p : α → Bool) :
    ∀ (l : List α) (i j : Nat), List.findIdx? p l i = some j → i ≤ j
  | [], i, j, h => by exact absurd h (by simp [List.findIdx?])
  | x :: xs, i, j, h => by
    rw [List.findIdx?_cons] at h
    by_cases hx : p x = true
    · rw [if_pos hx] at h
      have : i = j := Option.some_injective _ h
      omega
    · rw [if_neg hx] at h
      have := findIdx?_ge p xs (i + 1) j h
      omega

theorem findIdx?_some_zero {α : Type} (p : α → Bool) (l : List α)
    (h : List.findIdx? p l = some 0) : ∃ x xs, l = x :: xs ∧ p x = true := by
  cases l with
  | nil => exact absurd h (by simp [List.findIdx?])
  | cons x xs =>
    rw [List.findIdx?_cons] at h
    by_cases hx : p x = true
    · exact ⟨x, xs, rfl, hx⟩
    · rw [if_neg hx] at h
      have := findIdx?_ge p xs 1 0 h
      omega

/-! Status classification against the exact rational mean. -/

/-- The spec's classification contract for one entry: thresholds at
mean * 1.05 and mean * 0.95, and yellow whenever the mean is zero. -/
def statusSpec (st : String) (s : Nat) (m : ℚ) : Prop :=
  (st = "green" ↔ m * (21 / 20) < (s : ℚ)) ∧
  (st = "yellow" ↔ (m * (19 / 20) ≤ (s : ℚ) ∧ (s : ℚ) ≤ m * (21 / 20))) ∧
  (st = "red" ↔ (s : ℚ) < m * (19 / 20)) ∧
  (m = 0 → st = "yellow")

theorem mean_thresh_lt {σ c s : Nat} (hc : 0 < c) :
    ((σ : ℚ) / (c : ℚ)) * (21 / 20) < (s : ℚ) ↔ 21 * σ < 20 * s * c := by
  have hc' : (0 : ℚ) < (c : ℚ) := by exact_mod_cast hc
  rw [div_mul_eq_mul_div, div_lt_iff hc']
  constructor
  · intro h
    have h2 : ((21 * σ : Nat) : ℚ) < ((20 * s * c : Nat) : ℚ) := by push_cast; linarith
    exact_mod_cast h2
  · intro h
    have h2 : ((21 * σ : Nat) : ℚ) < ((20 * s * c : Nat) : ℚ) := by exact_mod_cast h
    push_cast at h2
    linarith

theorem mean_thresh_le {σ c s : Nat} (hc : 0 < c) :
    ((σ : ℚ) / (c : ℚ)) * (19 / 20) ≤ (s : ℚ) ↔ 19 * σ ≤ 20 * s * c := by
  have hc' : (0 : ℚ) < (c : ℚ) := by exact_mod_cast hc
  rw [div_mul_eq_mul_div, div_le_iff hc']
  constructor
  · intro h
    have h2 : ((19 * σ : Nat) : ℚ) ≤ ((20 * s * c : Nat) : ℚ) := by push_cast; linarith
    exact_mod_cast h2
  · intro h
    have h2 : ((19 * σ : Nat) : ℚ) ≤ ((20 * s * c : Nat) : ℚ) := by exact_mod_cast h
    push_cast at h2
    linarith

theorem statusColor_statusSpec (s : Nat) (m : MeanAcc) (hc : 0 < m.cnt)
    (h0 : m.sum = 0 → s = 0) : statusSpec (statusColor s m) s m.q := by
  have hq : m.q = (m.sum : ℚ) / (m.cnt : ℚ) := rfl
  have hqnn : 0 ≤ m.q := by
    rw [hq]
    positivity
  by_cases hσ : 0 < m.sum
  · have hq0 : m.q ≠ 0 := by
      rw [hq]
      have h1 : ((m.sum : ℚ)) ≠ 0 := by
        have : (0 : ℚ) < (m.sum : ℚ) := by exact_mod_cast hσ
        linarith
      have h2 : ((m.cnt : ℚ)) ≠ 0 := by
        have : (0 : ℚ) < (m.cnt : ℚ) := by exact_mod_cast hc
        linarith
      exact div_ne_zero h1 h2
    rw [statusColor, if_pos ⟨hσ, hc⟩]
    by_cases h1 : 21 * m.sum < 20 * s * m.cnt
    · rw [if_pos h1]
      have hgt : m.q * (21 / 20) < (s : ℚ) := by
        rw [hq]
        exact (mean_thresh_lt hc).mpr h1
      refine ⟨iff_of_true rfl hgt, ?_, ?_, fun h => absurd h hq0⟩
      · refine iff_of_false (by decide) ?_
        rintro ⟨-, hle⟩
        exact absurd hgt (not_lt.mpr hle)
      · refine iff_of_false (by decide) ?_
        intro hlt
        have hle : m.q * (19 / 20) ≤ m.q * (21 / 20) := by nlinarith
        linarith
    · rw [if_neg h1]
      have hle21 : (s : ℚ) ≤ m.q * (21 / 20) := by
        rw [hq]
        by_contra hcon
        push_neg at hcon
        exact h1 ((mean_thresh_lt hc).mp hcon)
      by_cases h2 : 19 * m.sum ≤ 20 * s * m.cnt
      · rw [if_pos h2]
        have hge : m.q * (19 / 20) ≤ (s : ℚ) := by
          rw [hq]
          exact (mean_thresh_le hc).mpr h2
        refine ⟨?_, iff_of_true rfl ⟨hge, hle21⟩, ?_, fun h => absurd h hq0⟩
        · refine iff_of_false (by decide) ?_
          intro hgt
          have h3 : 21 * m.sum < 20 * s * m.cnt := by
            rw [hq] at hgt
            exact (mean_thresh_lt hc).mp hgt
          exact h1 h3
        · refine iff_of_false (by decide) ?_
          intro hlt
          linarith
      · rw [if_neg h2]
        have hlt : (s : ℚ) < m.q * (19 / 20) := by
          rw [hq]
          by_contra hcon
          push_neg at hcon
          exact h2 ((mean_thresh_le hc).mp hcon)
        refine ⟨?_, ?_, iff_of_true rfl hlt, fun h => absurd h hq0⟩
        · refine iff_of_false (by decide) ?_
          intro hgt
          have hle : m.q * (19 / 20) ≤ m.q * (21 / 20) := by nlinarith
          linarith
        · refine iff_of_false (by decide) ?_
          rintro ⟨hge, -⟩
          linarith
  · have hσ0 : m.sum = 0 := Nat.eq_zero_of_not_pos hσ
    have hs0 : s = 0 := h0 hσ0
    have hq0 : m.q = 0 := by
      rw [hq, hσ0]
      simp
    rw [statusColor, if_neg (by rw [hσ0]; rintro ⟨h, -⟩; exact absurd h (by omega))]
    subst hs0
    rw [hq0]
    refine ⟨?_, ?_, ?_, fun _ => rfl⟩
    · refine iff_of_false (by decide) ?_
      norm_num
    · refine iff_of_true rfl ?_
      norm_num
    · refine iff_of_false (by decide) ?_
      norm_num

theorem statusColor_statusSpec_zero (s : Nat) (m : MeanAcc) (hσ : m.sum = 0)
    (hs : s = 0) : statusSpec (statusColor s m) s m.q := by
  have hq0 : m.q = 0 := by
    show ((m.sum : ℚ)) / (m.cnt : ℚ) = 0
    rw [hσ]
    simp
  rw [statusColor, if_neg (by rw [hσ]; rintro ⟨h, -⟩; exact absurd h (by omega))]
  subst hs
  rw [hq0]
  refine ⟨?_, ?_, ?_, fun _ => rfl⟩
  · refine iff_of_false (by decide) ?_
    norm_num
  · refine iff_of_true rfl ?_
    norm_num
  · refine iff_of_false (by decide) ?_
    norm_num

theorem cnt_pos_of_sum_ne {rows : List AggRow} (h : (meanAcc rows).sum ≠ 0) :
    0 < (meanAcc rows).cnt := by
  cases rows with
  | nil => exact absurd rfl h
  | cons a as =>
    show 0 < (a :: as).length
    simp

theorem statusSpec_entry_lower {es : List Event} {r : RankEntry} {n : Nat}
    (hr : r ∈ rankFrom (meanAcc (aggLower es)) n (sortDesc (aggLower es))) :
    statusSpec r.status_color r.score (meanAcc (aggLower es)).q := by
  rcases mem_rankFrom hr with ⟨p, hp, hsc, hst⟩
  have hpL : p ∈ aggLower es := (mem_sortDesc _).mp hp
  have hc : 0 < (meanAcc (aggLower es)).cnt := by
    show 0 < (aggLower es).length
    cases h : aggLower es with
    | nil => rw [h] at hpL; exact absurd hpL (List.not_mem_nil p)
    | cons a as => simp
  have h0 : (meanAcc (aggLower es)).sum = 0 → p.items_picked = 0 := by
    intro h
    rcases List.mem_map.mp hpL with ⟨k, _, rfl⟩
    exact score_aggLowerRow_of_no_picked (no_picked_of_sum_zero h) k
  rw [hst, hsc]
  exact statusColor_statusSpec p.items_picked _ hc h0

theorem statusSpec_entry_pair {es : List Event} {r : RankEntry} {n : Nat}
    (hr : r ∈ rankFrom (meanAcc (aggLower es)) n (sortDesc (aggPair es))) :
    statusSpec r.status_color r.score (meanAcc (aggLower es)).q := by
  rcases mem_rankFrom hr with ⟨p, hp, hsc, hst⟩
  have hpP : p ∈ aggPair es := (mem_sortDesc _).mp hp
  have hes : es ≠ [] := by
    intro h
    subst h
    exact absurd hpP (by simp [aggPair, dedupFirst])
  have hc : 0 < (meanAcc (aggLower es)).cnt := by
    show 0 < (aggLower es).length
    cases h : aggLower es with
    | nil => exact absurd (aggLower_eq_nil.mp h) hes
    | cons a as => simp
  have h0 : (meanAcc (aggLower es)).sum = 0 → p.items_picked = 0 := by
    intro h
    rcases List.mem_map.mp hpP with ⟨k, _, rfl⟩
    exact score_aggPairRow_of_no_picked (no_picked_of_sum_zero h) k
  rw [hst, hsc]
  exact statusColor_statusSpec p.items_picked _ hc h0

theorem ip_zero_of_no_picked_subfilter {es : List Event} (pred : Event → Bool)
    (h : es.filter isPicked = []) : ((es.filter pred).filter isPicked).length = 0 := by
  rw [List.filter_filter, List.length_eq_zero]
  exact filter_and_nil pred h

theorem own_zero_of_member_no_picked {es0 : List Event} {ms : List String} {pl : String}
    (hpl : pl ∈ ms) (h : (memberEvents ms es0).filter isPicked = []) :
    ((es0.filter (fun e => lowId e == pl)).filter isPicked).length = 0 := by
  rw [List.filter_filter, List.length_eq_zero, List.eq_nil_iff_forall_not_mem]
  intro a ha
  rcases List.mem_filter.mp ha with ⟨hmem, hb⟩
  have hp : isPicked a = true := ((Bool.and_eq_true _ _).mp hb).1
  have hl : lowId a = pl := beq_iff_eq.mp ((Bool.and_eq_true _ _).mp hb).2
  have hmm : a ∈ memberEvents ms es0 :=
    List.mem_filter.mpr ⟨hmem, by rw [hl]; exact decide_eq_true hpl⟩
  have hfin : a ∈ (memberEvents ms es0).filter isPicked := List.mem_filter.mpr ⟨hmm, hp⟩
  rw [h] at hfin
  exact List.not_mem_nil a hfin

theorem own_statusSpec_of_base (ip : Nat) (es : List Event)
    (hip : (meanAcc (aggLower es)).sum = 0 → ip = 0) :
    statusSpec (statusColor ip (meanAcc (aggLower es))) ip (meanAcc (aggLower es)).q := by
  by_cases hsum : (meanAcc (aggLower es)).sum = 0
  · exact statusColor_statusSpec_zero ip _ hsum (hip hsum)
  · exact statusColor_statusSpec ip _ (cnt_pos_of_sum_ne hsum) (fun h => absurd h hsum)

theorem supervisorRankingsCore_nonempty (usePostgres : Bool) {ms : List String}
    (h : ms.isEmpty = false) (tf : String) (now : Int) (events : List Event) :
    supervisorRankingsCore usePostgres ms tf now events
      = (rankFrom (meanAcc (aggLower (memberEvents ms (eventsInWindow (queryWindow tf now) events)))) 1
          (sortDesc (if usePostgres
            then aggPair (memberEvents ms (eventsInWindow (queryWindow tf now) events))
            else aggLower (memberEvents ms (eventsInWindow (queryWindow tf now) events)))),
         meanAcc (aggLower (memberEvents ms (eventsInWindow (queryWindow tf now) events)))) := by
  rw [supervisorRankingsCore, if_neg (by rw [h]; exact Bool.false_ne_true)]

theorem statusSpec_entry_ite {b : Bool} {es : List Event} {r : RankEntry} {n : Nat}
    (hr : r ∈ rankFrom (meanAcc (aggLower es)) n
        (sortDesc (if b then aggPair es else aggLower es))) :
    statusSpec r.status_color r.score (meanAcc (aggLower es)).q := by
  cases b with
  | true =>
    rw [if_pos rfl] at hr
    exact statusSpec_entry_pair hr
  | false =>
    rw [if_neg Bool.false_ne_true] at hr
    exact statusSpec_entry_lower hr

theorem pickerStats_leaderboard_statusSpec {usePostgres : Bool} {pl : String}
    {cohort : Option (List String)} {tf : String} {now : Int} {events : List Event}
    {r : RankEntry}
    (hr : r ∈ (pickerStatsLow usePostgres pl cohort tf now events).leaderboard) :
    statusSpec r.status_color r.score
      (pickerStatsLow usePostgres pl cohort tf now events).avg.q := by
  have h0 : (pickerStatsLow usePostgres pl cohort tf now events).leaderboard
      = (rankFrom (meanAcc (pickerMeanRows cohort (queryWindow tf now) events)) 1
          (pickerRankedRows usePostgres cohort (queryWindow tf now) events)).take 15 := rfl
  rw [h0] at hr
  have hr2 := List.mem_of_mem_take hr
  show statusSpec r.status_color r.score
    (meanAcc (pickerMeanRows cohort (queryWindow tf now) events)).q
  cases cohort with
  | none =>
    exact statusSpec_entry_pair hr2
  | some ms =>
    by_cases hms : ms.isEmpty = true
    · have hR : pickerRankedRows usePostgres (some ms) (queryWindow tf now) events
          = sortDesc (aggPair (eventsInWindow (queryWindow tf now) events)) := by
        simp [pickerRankedRows, hms]
      have hM : pickerMeanRows (some ms) (queryWindow tf now) events
          = aggLower (eventsInWindow (queryWindow tf now) events) := by
        simp [pickerMeanRows, hms]
      rw [hR, hM] at hr2
      rw [hM]
      exact statusSpec_entry_pair hr2
    · have hR : pickerRankedRows usePostgres (some ms) (queryWindow tf now) events
          = sortDesc (if usePostgres
              then aggPair (memberEvents ms (eventsInWindow (queryWindow tf now) events))
              else aggLower (memberEvents ms (eventsInWindow (queryWindow tf now) events))) := by
        simp [pickerRankedRows, hms]
      have hM : pickerMeanRows (some ms) (queryWindow tf now) events
          = aggLower (memberEvents ms (eventsInWindow (queryWindow tf now) events)) := by
        simp [pickerMeanRows, hms]
      rw [hR, hM] at hr2
      rw [hM]
      exact statusSpec_entry_ite hr2

theorem pickerStats_own_statusSpec (usePostgres : Bool) (pl : String)
    (cohort : Option (List String)) (tf : String) (now : Int) (events : List Event)
    (hcons : ∀ ms, cohort = some ms → ms.isEmpty = false → pl ∈ ms) :
    statusSpec (pickerStatsLow usePostgres pl cohort tf now events).status_color
      (pickerStatsLow usePostgres pl cohort tf now events).score
      (pickerStatsLow usePostgres pl cohort tf now events).avg.q := by
  show statusSpec
    (statusColor
      (((eventsInWindow (queryWindow tf now) events).filter (fun e => lowId e == pl)).filter isPicked).length
      (meanAcc (pickerMeanRows cohort (queryWindow tf now) events)))
    (((eventsInWindow (queryWindow tf now) events).filter (fun e => lowId e == pl)).filter isPicked).length
    (meanAcc (pickerMeanRows cohort (queryWindow tf now) events)).q
  cases cohort with
  | none =>
    exact own_statusSpec_of_base _ _
      (fun h => ip_zero_of_no_picked_subfilter _ (no_picked_of_sum_zero h))
  | some ms =>
    by_cases hms : ms.isEmpty = true
    · have hM : pickerMeanRows (some ms) (queryWindow tf now) events
          = aggLower (eventsInWindow (queryWindow tf now) events) := by
        simp [pickerMeanRows, hms]
      rw [hM]
      exact own_statusSpec_of_base _ _
        (fun h => ip_zero_of_no_picked_subfilter _ (no_picked_of_sum_zero h))
    · have hM : pickerMeanRows (some ms) (queryWindow tf now) events
          = aggLower (memberEvents ms (eventsInWindow (queryWindow tf now) events)) := by
        simp [pickerMeanRows, hms]
      rw [hM]
      have hfalse : ms.isEmpty = false := by
        cases h2 : ms.isEmpty with
        | false => rfl
        | true => exact absurd h2 hms
      have hpl : pl ∈ ms := hcons ms rfl hfalse
      exact own_statusSpec_of_base _ _
        (fun h => own_zero_of_member_no_picked hpl (no_picked_of_sum_zero h))

/-- C3: in every ranked result (supervisor rankings and the picker
leaderboard, on either backend), an entry is green iff
score > scope_mean * 1.05, yellow iff
scope_mean * 0.95 <= score <= scope_mean * 1.05, red iff
score < scope_mean * 0.95, and yellow whenever scope_mean = 0; the same holds
for the requesting picker's own status whenever the session cohort member set
is consistent (contains the requesting picker). -/
theorem claim_status_classification :
    (∀ usePostgres selector users tf now events r,
        r ∈ (supervisorApiRankings usePostgres selector users tf now events).rankings →
        statusSpec r.status_color r.score
          (supervisorApiRankings usePostgres selector users tf now events).avg.q)
    ∧ (∀ usePostgres pid cohort tf now events r,
        r ∈ (pickerApiStats usePostgres pid cohort tf now events).leaderboard →
        statusSpec r.status_color r.score
          (pickerApiStats usePostgres pid cohort tf now events).avg.q)
    ∧ (∀ usePostgres pid cohort tf now events,
        (∀ ms, cohort = some ms → ms.isEmpty = false → lowerStr pid ∈ ms) →
        statusSpec (pickerApiStats usePostgres pid cohort tf now events).status_color
          (pickerApiStats usePostgres pid cohort tf now events).score
          (pickerApiStats usePostgres pid cohort tf now events).avg.q) := by
  refine ⟨?_, ?_, ?_⟩
  · intro usePostgres selector users tf now events r hr
    by_cases hms : (cohortMembers (parseCohort selector) users).isEmpty = true
    · have hcore : supervisorRankingsCore usePostgres (cohortMembers (parseCohort selector) users)
          tf now events = ([], ⟨0, 0⟩) := by
        rw [supervisorRankingsCore, if_pos hms]
      have hrank : (supervisorApiRankings usePostgres selector users tf now events).rankings = [] := by
        show (supervisorRankingsCore usePostgres _ tf now events).1 = []
        rw [hcore]
      rw [hrank] at hr
      exact absurd hr (List.not_mem_nil r)
    · have hfalse : (cohortMembers (parseCohort selector) users).isEmpty = false := by
        cases h2 : (cohortMembers (parseCohort selector) users).isEmpty with
        | false => rfl
        | true => exact absurd h2 hms
      have hcore := supervisorRankingsCore_nonempty usePostgres hfalse tf now events
      have hrank : (supervisorApiRankings usePostgres selector users tf now events).rankings
          = rankFrom (meanAcc (aggLower (memberEvents (cohortMembers (parseCohort selector) users)
              (eventsInWindow (queryWindow tf now) events)))) 1
              (sortDesc (if usePostgres
                then aggPair (memberEvents (cohortMembers (parseCohort selector) users)
                  (eventsInWindow (queryWindow tf now) events))
                else aggLower (memberEvents (cohortMembers (parseCohort selector) users)
                  (eventsInWindow (queryWindow tf now) events)))) := by
        show (supervisorRankingsCore usePostgres _ tf now events).1 = _
        rw [hcore]
      have havg : (supervisorApiRankings usePostgres selector users tf now events).avg
          = meanAcc (aggLower (memberEvents (cohortMembers (parseCohort selector) users)
              (eventsInWindow (queryWindow tf now) events))) := by
        show (supervisorRankingsCore usePostgres _ tf now events).2 = _
        rw [hcore]
      rw [hrank] at hr
      rw [havg]
      exact statusSpec_entry_ite hr
  · intro usePostgres pid cohort tf now events r hr
    exact pickerStats_leaderboard_statusSpec hr
  · intro usePostgres pid cohort tf now events hcons
    exact pickerStats_own_statusSpec usePostgres (lowerStr pid) cohort tf now events hcons

/-- C3 witness at a concrete input: the single entry of a one-picker cohort is
classified yellow (score 1 equals the mean 1). -/
theorem claim_status_classification_witness :
    statusSpec (RankEntry.status_color ⟨1, "P1", 1, 0, 1, 1, "yellow"⟩)
      (RankEntry.score ⟨1, "P1", 1, 0, 1, 1, "yellow"⟩)
      (supervisorApiRankings false "1" [⟨"P1", "picker", some 1⟩] "today" 43200000000
        [⟨"P1", "COMPLETED", "pl", 1000000⟩]).avg.q :=
  claim_status_classification.1 false "1" [⟨"P1", "picker", some 1⟩] "today" 43200000000
    [⟨"P1", "COMPLETED", "pl", 1000000⟩] ⟨1, "P1", 1, 0, 1, 1, "yellow"⟩ (by decide)

/-! Sortedness and 1-based rank enumeration of the payload builders. -/

theorem rankFrom_sorted_getD (m : MeanAcc) (l : List AggRow) (i j : Nat) (hij : i ≤ j)
    (hj : j < (rankFrom m 1 (sortDesc l)).length) :
    ((rankFrom m 1 (sortDesc l)).getD j defaultEntry).score
      ≤ ((rankFrom m 1 (sortDesc l)).getD i defaultEntry).score := by
  have hlen : (rankFrom m 1 (sortDesc l)).length = (sortDesc l).length := length_rankFrom m 1 _
  have hj2 : j < (sortDesc l).length := by rw [← hlen]; exact hj
  have hi2 : i < (sortDesc l).length := lt_of_le_of_lt hij hj2
  rw [getD_rankFrom m 1 _ j hj2, getD_rankFrom m 1 _ i hi2]
  show ((sortDesc l).getD j defaultRow).items_picked
    ≤ ((sortDesc l).getD i defaultRow).items_picked
  exact sortDesc_getD_sorted l i j hij hj2

theorem rankFrom_rank_getD (m : MeanAcc) (l : List AggRow) (i : Nat)
    (hi : i < (rankFrom m 1 l).length) :
    ((rankFrom m 1 l).getD i defaultEntry).rank = i + 1 := by
  have hi2 : i < l.length := by rw [← length_rankFrom m 1 l]; exact hi
  rw [getD_rankFrom m 1 l i hi2]
  show 1 + i = i + 1
  omega

theorem csvRows_sorted_getD (l : List AggRow) (i j : Nat) (hij : i ≤ j)
    (hj : j < (csvRowsFrom 1 (sortDesc l)).length) :
    ((csvRowsFrom 1 (sortDesc l)).getD j defaultCsv).score
      ≤ ((csvRowsFrom 1 (sortDesc l)).getD i defaultCsv).score := by
  have hlen : (csvRowsFrom 1 (sortDesc l)).length = (sortDesc l).length := length_csvRowsFrom 1 _
  have hj2 : j < (sortDesc l).length := by rw [← hlen]; exact hj
  have hi2 : i < (sortDesc l).length := lt_of_le_of_lt hij hj2
  rw [getD_csvRowsFrom 1 _ j hj2, getD_csvRowsFrom 1 _ i hi2]
  show ((sortDesc l).getD j defaultRow).items_picked
    ≤ ((sortDesc l).getD i defaultRow).items_picked
  exact sortDesc_getD_sorted l i j hij hj2

theorem csvRows_rank_getD (l : List AggRow) (i : Nat)
    (hi : i < (csvRowsFrom 1 l).length) :
    ((csvRowsFrom 1 l).getD i defaultCsv).rank = i + 1 := by
  have hi2 : i < l.length := by rw [← length_csvRowsFrom 1 l]; exact hi
  rw [getD_csvRowsFrom 1 l i hi2]
  show 1 + i = i + 1
  omega

theorem getD_take {α : Type} (l : List α) (n i : Nat) (d : α)
    (hi : i < (l.take n).length) : (l.take n).getD i d = l.getD i d := by
  have hi2 : i < l.length := by
    rw [List.length_take] at hi
    omega
  rw [List.getD_eq_get _ _ hi, List.getD_eq_get _ _ hi2]
  simp [List.get_eq_getElem, List.getElem_take]

theorem pickerRankedRows_eq_sortDesc (usePostgres : Bool) (c : Option (List String))
    (w : Int × Int) (es : List Event) :
    ∃ l, pickerRankedRows usePostgres c w es = sortDesc l := by
  cases c with
  | none => exact ⟨aggPair (eventsInWindow w es), rfl⟩
  | some ms =>
    by_cases hms : ms.isEmpty = true
    · exact ⟨aggPair (eventsInWindow w es), by simp [pickerRankedRows, hms]⟩
    · exact ⟨(if usePostgres then aggPair (memberEvents ms (eventsInWindow w es))
              else aggLower (memberEvents ms (eventsInWindow w es))),
             by simp [pickerRankedRows, hms]⟩

theorem supervisorDownloadTable_nonempty (usePostgres : Bool) {selector : String}
    {users : List User} (h : (cohortMembers (parseCohort selector) users).isEmpty = false)
    (tf : String) (now : Int) (events : List Event) :
    supervisorDownloadTable usePostgres selector users tf now events
      = (csvHeader,
         csvRowsFrom 1 (sortDesc
           (if usePostgres
            then aggPair (memberEvents (cohortMembers (parseCohort selector) users)
              (eventsInWindow (queryWindow tf now) events))
            else aggLower (memberEvents (cohortMembers (parseCohort selector) users)
              (eventsInWindow (queryWindow tf now) events))))) := by
  rw [supervisorDownloadTable, if_neg (by rw [h]; exact Bool.false_ne_true)]

theorem supervisorDownloadTable_empty (usePostgres : Bool) {selector : String}
    {users : List User} (h : (cohortMembers (parseCohort selector) users).isEmpty = true)
    (tf : String) (now : Int) (events : List Event) :
    supervisorDownloadTable usePostgres selector users tf now events = (csvHeader, []) := by
  rw [supervisorDownloadTable, if_pos h]

/-- C5: every ranked result (supervisor rankings, CSV export rows, picker
leaderboard, on either backend) is sorted non-increasing by score and carries
rank = position + 1 (1-based). -/
theorem claim_sorted_and_ranked :
    (∀ usePostgres selector users tf now events i j, i ≤ j →
        j < (supervisorApiRankings usePostgres selector users tf now events).rankings.length →
        ((supervisorApiRankings usePostgres selector users tf now events).rankings.getD j defaultEntry).score
          ≤ ((supervisorApiRankings usePostgres selector users tf now events).rankings.getD i defaultEntry).score)
    ∧ (∀ usePostgres selector users tf now events i,
        i < (supervisorApiRankings usePostgres selector users tf now events).rankings.length →
        ((supervisorApiRankings usePostgres selector users tf now events).rankings.getD i defaultEntry).rank
          = i + 1)
    ∧ (∀ usePostgres selector users tf now events i j, i ≤ j →
        j < (supervisorDownloadTable usePostgres selector users tf now events).2.length →
        ((supervisorDownloadTable usePostgres selector users tf now events).2.getD j defaultCsv).score
          ≤ ((supervisorDownloadTable usePostgres selector users tf now events).2.getD i defaultCsv).score)
    ∧ (∀ usePostgres selector users tf now events i,
        i < (supervisorDownloadTable usePostgres selector users tf now events).2.length →
        ((supervisorDownloadTable usePostgres selector users tf now events).2.getD i defaultCsv).rank = i + 1)
    ∧ (∀ usePostgres pid cohort tf now events i j, i ≤ j →
        j < (pickerApiStats usePostgres pid cohort tf now events).leaderboard.length →
        ((pickerApiStats usePostgres pid cohort tf now events).leaderboard.getD j defaultEntry).score
          ≤ ((pickerApiStats usePostgres pid cohort tf now events).leaderboard.getD i defaultEntry).score)
    ∧ (∀ usePostgres pid cohort tf now events i,
        i < (pickerApiStats usePostgres pid cohort tf now events).leaderboard.length →
        ((pickerApiStats usePostgres pid cohort tf now events).leaderboard.getD i defaultEntry).rank
          = i + 1) := by
  have hsup : ∀ usePostgres selector users tf now events,
      (supervisorApiRankings usePostgres selector users tf now events).rankings = []
      ∨ ∃ l, (supervisorApiRankings usePostgres selector users tf now events).rankings
          = rankFrom (supervisorApiRankings usePostgres selector users tf now events).avg 1
              (sortDesc l) := by
    intro usePostgres selector users tf now events
    by_cases hms : (cohortMembers (parseCohort selector) users).isEmpty = true
    · left
      show (supervisorRankingsCore usePostgres _ tf now events).1 = []
      rw [supervisorRankingsCore, if_pos hms]
    · right
      have hfalse : (cohortMembers (parseCohort selector) users).isEmpty = false := by
        cases h2 : (cohortMembers (parseCohort selector) users).isEmpty with
        | false => rfl
        | true => exact absurd h2 hms
      refine ⟨(if usePostgres
          then aggPair (memberEvents (cohortMembers (parseCohort selector) users)
            (eventsInWindow (queryWindow tf now) events))
          else aggLower (memberEvents (cohortMembers (parseCohort selector) users)
            (eventsInWindow (queryWindow tf now) events))), ?_⟩
      have hcore := supervisorRankingsCore_nonempty usePostgres hfalse tf now events
      show (supervisorRankingsCore usePostgres _ tf now events).1
        = rankFrom (supervisorRankingsCore usePostgres _ tf now events).2 1 (sortDesc _)
      rw [hcore]
  refine ⟨?_, ?_, ?_, ?_, ?_, ?_⟩
  · intro usePostgres selector users tf now events i j hij hj
    rcases hsup usePostgres selector users tf now events with hnil | ⟨l, heq⟩
    · rw [hnil] at hj
      exact absurd hj (by simp)
    · rw [heq] at hj ⊢
      exact rankFrom_sorted_getD _ l i j hij hj
  · intro usePostgres selector users tf now events i hi
    rcases hsup usePostgres selector users tf now events with hnil | ⟨l, heq⟩
    · rw [hnil] at hi
      exact absurd hi (by simp)
    · rw [heq] at hi ⊢
      exact rankFrom_rank_getD _ (sortDesc l) i hi
  · intro usePostgres selector users tf now events i j hij hj
    by_cases hms : (cohortMembers (parseCohort selector) users).isEmpty = true
    · rw [supervisorDownloadTable_empty usePostgres hms tf now events] at hj
      exact absurd hj (by simp)
    · have hfalse : (cohortMembers (parseCohort selector) users).isEmpty = false := by
        cases h2 : (cohortMembers (parseCohort selector) users).isEmpty with
        | false => rfl
        | true => exact absurd h2 hms
      rw [supervisorDownloadTable_nonempty usePostgres hfalse tf now events] at hj ⊢
      exact csvRows_sorted_getD _ i j hij hj
  · intro usePostgres selector users tf now events i hi
    by_cases hms : (cohortMembers (parseCohort selector) users).isEmpty = true
    · rw [supervisorDownloadTable_empty usePostgres hms tf now events] at hi
      exact absurd hi (by simp)
    · have hfalse : (cohortMembers (parseCohort selector) users).isEmpty = false := by
        cases h2 : (cohortMembers (parseCohort selector) users).isEmpty with
        | false => rfl
        | true => exact absurd h2 hms
      rw [supervisorDownloadTable_nonempty usePostgres hfalse tf now events] at hi ⊢
      exact csvRows_rank_getD _ i hi
  · intro usePostgres pid cohort tf now events i j hij hj
    have hlb : (pickerApiStats usePostgres pid cohort tf now events).leaderboard
        = (rankFrom (meanAcc (pickerMeanRows cohort (queryWindow tf now) events)) 1
            (pickerRankedRows usePostgres cohort (queryWindow tf now) events)).take 15 := rfl
    rcases pickerRankedRows_eq_sortDesc usePostgres cohort (queryWindow tf now) events with ⟨l, hrows⟩
    rw [hlb, hrows] at hj ⊢
    have hj2 := hj
    rw [getD_take _ _ _ _ hj, getD_take _ _ _ _ (lt_of_le_of_lt hij hj)]
    have hjlen : j < (rankFrom (meanAcc (pickerMeanRows cohort (queryWindow tf now) events)) 1
        (sortDesc l)).length := by
      rw [List.length_take] at hj2
      omega
    exact rankFrom_sorted_getD _ l i j hij hjlen
  · intro usePostgres pid cohort tf now events i hi
    have hlb : (pickerApiStats usePostgres pid cohort tf now events).leaderboard
        = (rankFrom (meanAcc (pickerMeanRows cohort (queryWindow tf now) events)) 1
            (pickerRankedRows usePostgres cohort (queryWindow tf now) events)).take 15 := rfl
    rw [hlb] at hi ⊢
    have hi2 := hi
    rw [getD_take _ _ _ _ hi]
    have hilen : i < (rankFrom (meanAcc (pickerMeanRows cohort (queryWindow tf now) events)) 1
        (pickerRankedRows usePostgres cohort (queryWindow tf now) events)).length := by
      rw [List.length_take] at hi2
      omega
    exact rankFrom_rank_getD _ _ i hilen

/-- C5 witness at a concrete input: with two pickers scoring 2 and 1, the
supervisor rankings are sorted and carry ranks 1 and 2, the CSV rows match,
and the picker leaderboard matches. -/
theorem claim_sorted_and_ranked_witness :
    (((supervisorApiRankings false "1" [⟨"P1", "picker", some 1⟩, ⟨"P2", "picker", some 1⟩]
        "today" 43200000000
        [⟨"P1", "COMPLETED", "a", 1000000⟩, ⟨"P2", "COMPLETED", "b", 2000000⟩,
         ⟨"P1", "COMPLETED", "c", 3000000⟩]).rankings.getD 1 defaultEntry).score
      ≤ ((supervisorApiRankings false "1" [⟨"P1", "picker", some 1⟩, ⟨"P2", "picker", some 1⟩]
        "today" 43200000000
        [⟨"P1", "COMPLETED", "a", 1000000⟩, ⟨"P2", "COMPLETED", "b", 2000000⟩,
         ⟨"P1", "COMPLETED", "c", 3000000⟩]).rankings.getD 0 defaultEntry).score)
    ∧ (((supervisorDownloadTable true "1" [⟨"P1", "picker", some 1⟩, ⟨"P2", "picker", some 1⟩]
        "today" 43200000000
        [⟨"P1", "COMPLETED", "a", 1000000⟩, ⟨"P2", "COMPLETED", "b", 2000000⟩,
         ⟨"P1", "COMPLETED", "c", 3000000⟩]).2.getD 1 defaultCsv).rank = 2)
    ∧ (((pickerApiStats false "P1" none "today" 43200000000
        [⟨"P1", "COMPLETED", "a", 1000000⟩, ⟨"P2", "COMPLETED", "b", 2000000⟩,
         ⟨"P1", "COMPLETED", "c", 3000000⟩]).leaderboard.getD 0 defaultEntry).rank = 1) :=
  ⟨claim_sorted_and_ranked.1 false "1" [⟨"P1", "picker", some 1⟩, ⟨"P2", "picker", some 1⟩]
      "today" 43200000000
      [⟨"P1", "COMPLETED", "a", 1000000⟩, ⟨"P2", "COMPLETED", "b", 2000000⟩,
       ⟨"P1", "COMPLETED", "c", 3000000⟩] 0 1 (by decide) (by decide),
   claim_sorted_and_ranked.2.2.2.1 true "1" [⟨"P1", "picker", some 1⟩, ⟨"P2", "picker", some 1⟩]
      "today" 43200000000
      [⟨"P1", "COMPLETED", "a", 1000000⟩, ⟨"P2", "COMPLETED", "b", 2000000⟩,
       ⟨"P1", "COMPLETED", "c", 3000000⟩] 1 (by decide),
   claim_sorted_and_ranked.2.2.2.2.2 false "P1" none "today" 43200000000
      [⟨"P1", "COMPLETED", "a", 1000000⟩, ⟨"P2", "COMPLETED", "b", 2000000⟩,
       ⟨"P1", "COMPLETED", "c", 3000000⟩] 0 (by decide)⟩

/-! Lemmas for the rank/next-rank/difference loop. -/

theorem rankCalc_of_none {rows : List AggRow} (ownScore : Nat) {pl : String}
    (h : List.findIdx? (fun p => lowerStr p.picker_id == pl) rows = none) :
    rankCalc rows ownScore pl
      = (0, 0, if ownScore = 0 ∧ 0 < rows.length
               then ((rows.headD defaultRow).score : Int) else 0) := by
  simp only [rankCalc, h]

theorem rankCalc_of_some {rows : List AggRow} {ownScore : Nat} {pl : String} {idx : Nat}
    (h : List.findIdx? (fun p => lowerStr p.picker_id == pl) rows = some idx) :
    rankCalc rows ownScore pl
      = (idx + 1,
         if 0 < idx then ((rows.getD (idx - 1) defaultRow).score : Int) - (ownScore : Int) + 1
         else 0,
         if 0 < rows.length then ((rows.headD defaultRow).score : Int) - (ownScore : Int)
         else 0) := by
  simp only [rankCalc, h]

theorem findIdx?_ne_nil {α : Type} {p : α → Bool} {l : List α} {i j : Nat}
    (h : List.findIdx? p l i = some j) : l ≠ [] := by
  intro hnil
  subst hnil
  exact absurd h (by simp [List.findIdx?])

theorem pickerStatsLow_rank_eq (usePostgres : Bool) (pl : String)
    (cohort : Option (List String)) (tf : String) (now : Int) (events : List Event) :
    (pickerStatsLow usePostgres pl cohort tf now events).rank
      = (rankCalc (pickerRankedRows usePostgres cohort (queryWindow tf now) events)
          ((((eventsInWindow (queryWindow tf now) events).filter
              (fun e => lowId e == pl)).filter isPicked).length) pl).1 := rfl

theorem pickerStatsLow_itnr_eq (usePostgres : Bool) (pl : String)
    (cohort : Option (List String)) (tf : String) (now : Int) (events : List Event) :
    (pickerStatsLow usePostgres pl cohort tf now events).items_to_next_rank
      = (rankCalc (pickerRankedRows usePostgres cohort (queryWindow tf now) events)
          ((((eventsInWindow (queryWindow tf now) events).filter
              (fun e => lowId e == pl)).filter isPicked).length) pl).2.1 := rfl

theorem pickerStatsLow_diff_eq (usePostgres : Bool) (pl : String)
    (cohort : Option (List String)) (tf : String) (now : Int) (events : List Event) :
    (pickerStatsLow usePostgres pl cohort tf now events).difference_from_first
      = (rankCalc (pickerRankedRows usePostgres cohort (queryWindow tf now) events)
          ((((eventsInWindow (queryWindow tf now) events).filter
              (fun e => lowId e == pl)).filter isPicked).length) pl).2.2 := rfl

theorem pickerStatsLow_score_eq (usePostgres : Bool) (pl : String)
    (cohort : Option (List String)) (tf : String) (now : Int) (events : List Event) :
    (pickerStatsLow usePostgres pl cohort tf now events).score
      = (((eventsInWindow (queryWindow tf now) events).filter
          (fun e => lowId e == pl)).filter isPicked).length := rfl

theorem mem_aggLower_lowId {es : List Event} {r : AggRow} (h : r ∈ aggLower es) :
    ∃ e ∈ es, lowerStr r.picker_id = lowId e := by
  rcases List.mem_map.mp h with ⟨k, hk, rfl⟩
  rcases exists_event_of_mem_dedup_lowId hk with ⟨e, he, hek⟩
  exact ⟨e, he, by rw [lowerStr_picker_aggLowerRow hk, ← hek]⟩

theorem mem_aggPair_lowId {es : List Event} {r : AggRow} (h : r ∈ aggPair es) :
    ∃ e ∈ es, lowerStr r.picker_id = lowId e := by
  rcases List.mem_map.mp h with ⟨k, hk, rfl⟩
  rcases List.mem_map.mp (mem_dedupFirst.mp hk) with ⟨e, he, hek⟩
  refine ⟨e, he, ?_⟩
  rw [lowerStr_picker_aggPairRow hk, ← hek]
  rfl

theorem mem_aggIte_lowId {b : Bool} {es : List Event} {r : AggRow}
    (h : r ∈ (if b then aggPair es else aggLower es)) :
    ∃ e ∈ es, lowerStr r.picker_id = lowId e := by
  cases b with
  | true =>
    rw [if_pos rfl] at h
    exact mem_aggPair_lowId h
  | false =>
    rw [if_neg Bool.false_ne_true] at h
    exact mem_aggLower_lowId h

theorem mem_memberEvents {ms : List String} {events : List Event} {e : Event} :
    e ∈ memberEvents ms events ↔ e ∈ events ∧ lowId e ∈ ms := by
  rw [memberEvents, List.mem_filter, decide_eq_true_eq]

theorem pickerRankedRows_lowId {usePostgres : Bool} {cohort : Option (List String)}
    {w : Int × Int} {events : List Event} {r : AggRow}
    (hr : r ∈ pickerRankedRows usePostgres cohort w events) :
    ∃ e ∈ events, inWindow w e.updated_at = true ∧ lowerStr r.picker_id = lowId e := by
  have hunpack : ∀ {e : Event}, e ∈ eventsInWindow w events →
      e ∈ events ∧ inWindow w e.updated_at = true := fun he => List.mem_filter.mp he
  cases cohort with
  | none =>
    rcases mem_aggPair_lowId ((mem_sortDesc _).mp hr) with ⟨e, he, heq⟩
    rcases hunpack he with ⟨h1, h2⟩
    exact ⟨e, h1, h2, heq⟩
  | some ms =>
    by_cases hms : ms.isEmpty = true
    · rw [show pickerRankedRows usePostgres (some ms) w events
          = sortDesc (aggPair (eventsInWindow w events)) by simp [pickerRankedRows, hms]] at hr
      rcases mem_aggPair_lowId ((mem_sortDesc _).mp hr) with ⟨e, he, heq⟩
      rcases hunpack he with ⟨h1, h2⟩
      exact ⟨e, h1, h2, heq⟩
    · rw [show pickerRankedRows usePostgres (some ms) w events
          = sortDesc (if usePostgres then aggPair (memberEvents ms (eventsInWindow w events))
                      else aggLower (memberEvents ms (eventsInWindow w events)))
          by simp [pickerRankedRows, hms]] at hr
      rcases mem_aggIte_lowId ((mem_sortDesc _).mp hr) with ⟨e, he, heq⟩
      rcases hunpack (mem_memberEvents.mp he).1 with ⟨h1, h2⟩
      exact ⟨e, h1, h2, heq⟩

/-- C1 counterexample: a picker whose only in-window event is ITEM_NOT_FOUND
(zero qualifying events) does appear in the ranked list (the aggregate groups
all in-window rows, whatever their status), and the single-picker query
returns rank 2 and items_to_next_rank 2, not the claimed sentinels 0 and 0. -/
theorem claim_zero_event_unranked_counterexample :
    (pickerApiStats false "P2" none "today" 43200000000
      [⟨"P1", "COMPLETED", "pl1", 1000000⟩, ⟨"P2", "ITEM_NOT_FOUND", "pl2", 2000000⟩]).rank = 2
    ∧ (pickerApiStats false "P2" none "today" 43200000000
      [⟨"P1", "COMPLETED", "pl1", 1000000⟩, ⟨"P2", "ITEM_NOT_FOUND", "pl2", 2000000⟩]).rank ≠ 0
    ∧ (pickerApiStats false "P2" none "today" 43200000000
      [⟨"P1", "COMPLETED", "pl1", 1000000⟩,
       ⟨"P2", "ITEM_NOT_FOUND", "pl2", 2000000⟩]).items_to_next_rank = 2
    ∧ ((pickerApiStats false "P2" none "today" 43200000000
      [⟨"P1", "COMPLETED", "pl1", 1000000⟩, ⟨"P2", "ITEM_NOT_FOUND", "pl2", 2000000⟩]).leaderboard.any
        (fun r => r.picker_id == "P2")) = true := by
  refine ⟨?_, ?_, ?_, ?_⟩ <;> decide

/-- C1 amended: on either backend, a picker with zero in-window events of any
status never appears in the ranked list, and the single-picker query then
returns rank = 0, items_to_next_rank = 0, and difference_from_first equal to
the top entry's score if the list is non-empty, else 0.  (A picker with
in-window events of only non-qualifying statuses does appear, with
score 0.) -/
theorem claim_zero_event_unranked_amended (usePostgres : Bool) (pid : String)
    (cohort : Option (List String)) (tf : String) (now : Int) (events : List Event)
    (h : ∀ e ∈ events, inWindow (queryWindow tf now) e.updated_at = true →
          lowId e ≠ lowerStr pid) :
    (∀ r ∈ pickerRankedRows usePostgres cohort (queryWindow tf now) events,
        lowerStr r.picker_id ≠ lowerStr pid)
    ∧ (pickerApiStats usePostgres pid cohort tf now events).rank = 0
    ∧ (pickerApiStats usePostgres pid cohort tf now events).items_to_next_rank = 0
    ∧ (pickerApiStats usePostgres pid cohort tf now events).difference_from_first
        = (if pickerRankedRows usePostgres cohort (queryWindow tf now) events = [] then 0
           else (((pickerRankedRows usePostgres cohort (queryWindow tf now) events).headD
                    defaultRow).score : Int)) := by
  have hrowsA : ∀ r ∈ pickerRankedRows usePostgres cohort (queryWindow tf now) events,
      lowerStr r.picker_id ≠ lowerStr pid := by
    intro r hr
    rcases pickerRankedRows_lowId hr with ⟨e, he, hin, heq⟩
    rw [heq]
    exact h e he hin
  have hown : (eventsInWindow (queryWindow tf now) events).filter
      (fun e => lowId e == lowerStr pid) = [] := by
    rw [List.eq_nil_iff_forall_not_mem]
    intro e he
    rcases List.mem_filter.mp he with ⟨hmem, hbeq⟩
    rcases List.mem_filter.mp hmem with ⟨hev, hinw⟩
    exact h e hev hinw (beq_iff_eq.mp hbeq)
  have hip : (((eventsInWindow (queryWindow tf now) events).filter
      (fun e => lowId e == lowerStr pid)).filter isPicked).length = 0 := by
    rw [hown]
    rfl
  have hnone : List.findIdx? (fun p => lowerStr p.picker_id == lowerStr pid)
      (pickerRankedRows usePostgres cohort (queryWindow tf now) events) = none :=
    findIdx?_eq_none_of_all _ _ 0 (fun x hx => beq_false_of_ne (hrowsA x hx))
  have hcalc := rankCalc_of_none (((eventsInWindow (queryWindow tf now)
      events).filter (fun e => lowId e == lowerStr pid)).filter isPicked).length hnone
  refine ⟨hrowsA, ?_, ?_, ?_⟩
  · show (pickerStatsLow usePostgres (lowerStr pid) cohort tf now events).rank = 0
    rw [pickerStatsLow_rank_eq, hcalc]
  · show (pickerStatsLow usePostgres (lowerStr pid) cohort tf now events).items_to_next_rank = 0
    rw [pickerStatsLow_itnr_eq, hcalc]
  · show (pickerStatsLow usePostgres (lowerStr pid) cohort tf now events).difference_from_first = _
    rw [pickerStatsLow_diff_eq, hcalc]
    cases hrows : pickerRankedRows usePostgres cohort (queryWindow tf now) events with
    | nil => simp
    | cons a as =>
      rw [if_pos ⟨hip, by simp⟩, if_neg (by simp)]

/-- C1 amended witness: a concrete picker with no events at all in the window
is absent from the list, unranked, and sees the top score 1 as
difference_from_first. -/
theorem claim_zero_event_unranked_amended_witness :
    (pickerApiStats false "p9" none "today" 43200000000
      [⟨"P1", "COMPLETED", "a", 1000000⟩]).rank = 0
    ∧ (pickerApiStats false "p9" none "today" 43200000000
      [⟨"P1", "COMPLETED", "a", 1000000⟩]).items_to_next_rank = 0
    ∧ (pickerApiStats false "p9" none "today" 43200000000
      [⟨"P1", "COMPLETED", "a", 1000000⟩]).difference_from_first = 1 := by
  have h := claim_zero_event_unranked_amended false "p9" none "today" 43200000000
    [⟨"P1", "COMPLETED", "a", 1000000⟩] (by decide)
  refine ⟨h.2.1, h.2.2.1, ?_⟩
  rw [h.2.2.2]
  decide

theorem aggLowerRow_member_own {es0 : List Event} {ms : List String} {k : String}
    (hk : k ∈ dedupFirst ((memberEvents ms es0).map lowId)) :
    (aggLowerRow (memberEvents ms es0) k).items_picked
      = ((es0.filter (fun e => lowId e == k)).filter isPicked).length := by
  have hkms : k ∈ ms := by
    rcases exists_event_of_mem_dedup_lowId hk with ⟨e, he, hek⟩
    have hems := (mem_memberEvents.mp he).2
    rw [hek] at hems
    exact hems
  have hgrp : groupL (memberEvents ms es0) k = es0.filter (fun e => lowId e == k) := by
    rw [groupL, memberEvents, List.filter_filter]
    refine List.filter_congr ?_
    intro e _
    by_cases hek : lowId e = k
    · simp [hek, hkms]
    · simp [beq_false_of_ne hek]
  show ((groupL (memberEvents ms es0) k).filter isPicked).length = _
  rw [hgrp]

/-- C6 counterexample: with the requesting picker's qualifying events split
across two casings of the id (CA.1 twice, ca.1 once), the picker is found at
rank 1 yet difference_from_first is -1, not the claimed 0 — both in the
no-cohort leaderboard (same query on either backend) and in the USE_POSTGRES
cohort-scoped list, whose GROUP BY (LOWER(picker_id), picker_id) also splits
the variants: the rank-1 entry counts only the CA.1-cased rows, while the
picker's own score counts all case-insensitive matches. -/
theorem claim_next_rank_formulas_counterexample :
    (pickerApiStats false "ca.1" none "today" 43200000000
      [⟨"CA.1", "COMPLETED", "x1", 1000000⟩, ⟨"CA.1", "COMPLETED", "x2", 1100000⟩,
       ⟨"ca.1", "COMPLETED", "x3", 1200000⟩]).rank = 1
    ∧ (pickerApiStats false "ca.1" none "today" 43200000000
      [⟨"CA.1", "COMPLETED", "x1", 1000000⟩, ⟨"CA.1", "COMPLETED", "x2", 1100000⟩,
       ⟨"ca.1", "COMPLETED", "x3", 1200000⟩]).difference_from_first = -1
    ∧ (pickerApiStats true "ca.1" (some ["ca.1"]) "today" 43200000000
      [⟨"CA.1", "COMPLETED", "x1", 1000000⟩, ⟨"CA.1", "COMPLETED", "x2", 1100000⟩,
       ⟨"ca.1", "COMPLETED", "x3", 1200000⟩]).rank = 1
    ∧ (pickerApiStats true "ca.1" (some ["ca.1"]) "today" 43200000000
      [⟨"CA.1", "COMPLETED", "x1", 1000000⟩, ⟨"CA.1", "COMPLETED", "x2", 1100000⟩,
       ⟨"ca.1", "COMPLETED", "x3", 1200000⟩]).difference_from_first = -1 := by
  refine ⟨?_, ?_, ?_, ?_⟩ <;> decide

/-- C6 amended: for a requesting picker found in the ranked list, rank 1 gives
items_to_next_rank = 0 and difference_from_first = top score - own score;
that difference is 0 in the SQLite cohort-scoped path, whose rank-1 entry is
the picker's own case-insensitive aggregate (under USE_POSTGRES or without a
cohort the pair grouping can make it nonzero, as the counterexample shows);
rank r >= 2 gives items_to_next_rank = score at rank r-1 minus own score
plus 1 and difference_from_first = top score minus own score. -/
theorem claim_next_rank_formulas_amended (usePostgres : Bool) (pid : String)
    (cohort : Option (List String)) (tf : String) (now : Int) (events : List Event) :
    ((pickerApiStats usePostgres pid cohort tf now events).rank = 1 →
        (pickerApiStats usePostgres pid cohort tf now events).items_to_next_rank = 0
        ∧ (pickerApiStats usePostgres pid cohort tf now events).difference_from_first
            = (((pickerRankedRows usePostgres cohort (queryWindow tf now) events).headD
                  defaultRow).score : Int)
              - ((pickerApiStats usePostgres pid cohort tf now events).score : Int))
    ∧ (∀ ms, usePostgres = false → cohort = some ms → ms.isEmpty = false →
        (pickerApiStats usePostgres pid cohort tf now events).rank = 1 →
        (pickerApiStats usePostgres pid cohort tf now events).difference_from_first = 0)
    ∧ (2 ≤ (pickerApiStats usePostgres pid cohort tf now events).rank →
        (pickerApiStats usePostgres pid cohort tf now events).items_to_next_rank
          = (((pickerRankedRows usePostgres cohort (queryWindow tf now) events).getD
                ((pickerApiStats usePostgres pid cohort tf now events).rank - 2) defaultRow).score : Int)
            - ((pickerApiStats usePostgres pid cohort tf now events).score : Int) + 1
        ∧ (pickerApiStats usePostgres pid cohort tf now events).difference_from_first
          = (((pickerRankedRows usePostgres cohort (queryWindow tf now) events).headD
                defaultRow).score : Int)
            - ((pickerApiStats usePostgres pid cohort tf now events).score : Int)) := by
  have hsc : (pickerApiStats usePostgres pid cohort tf now events).score
      = (((eventsInWindow (queryWindow tf now) events).filter
          (fun e => lowId e == lowerStr pid)).filter isPicked).length :=
    pickerStatsLow_score_eq usePostgres (lowerStr pid) cohort tf now events
  cases hfind : List.findIdx? (fun p => lowerStr p.picker_id == lowerStr pid)
      (pickerRankedRows usePostgres cohort (queryWindow tf now) events) with
  | none =>
    have hrank : (pickerApiStats usePostgres pid cohort tf now events).rank = 0 := by
      show (pickerStatsLow usePostgres (lowerStr pid) cohort tf now events).rank = 0
      rw [pickerStatsLow_rank_eq, rankCalc_of_none _ hfind]
    refine ⟨?_, ?_, ?_⟩
    · intro h1
      rw [hrank] at h1
      exact absurd h1 (by decide)
    · intro ms hpg hc hms h1
      rw [hrank] at h1
      exact absurd h1 (by decide)
    · intro h2
      rw [hrank] at h2
      exact absurd h2 (by omega)
  | some idx =>
    have hrank : (pickerApiStats usePostgres pid cohort tf now events).rank = idx + 1 := by
      show (pickerStatsLow usePostgres (lowerStr pid) cohort tf now events).rank = idx + 1
      rw [pickerStatsLow_rank_eq, rankCalc_of_some hfind]
    have hlen : 0 < (pickerRankedRows usePostgres cohort (queryWindow tf now) events).length :=
      List.length_pos.mpr (findIdx?_ne_nil hfind)
    have hitnr : (pickerApiStats usePostgres pid cohort tf now events).items_to_next_rank
        = (if 0 < idx
           then (((pickerRankedRows usePostgres cohort (queryWindow tf now) events).getD (idx - 1)
                   defaultRow).score : Int)
                - ((((eventsInWindow (queryWindow tf now) events).filter
                    (fun e => lowId e == lowerStr pid)).filter isPicked).length : Int) + 1
           else 0) := by
      show (pickerStatsLow usePostgres (lowerStr pid) cohort tf now events).items_to_next_rank = _
      rw [pickerStatsLow_itnr_eq, rankCalc_of_some hfind]
    have hdiff : (pickerApiStats usePostgres pid cohort tf now events).difference_from_first
        = (if 0 < (pickerRankedRows usePostgres cohort (queryWindow tf now) events).length
           then (((pickerRankedRows usePostgres cohort (queryWindow tf now) events).headD
                   defaultRow).score : Int)
                - ((((eventsInWindow (queryWindow tf now) events).filter
                    (fun e => lowId e == lowerStr pid)).filter isPicked).length : Int)
           else 0) := by
      show (pickerStatsLow usePostgres (lowerStr pid) cohort tf now events).difference_from_first = _
      rw [pickerStatsLow_diff_eq, rankCalc_of_some hfind]
    refine ⟨?_, ?_, ?_⟩
    · intro h1
      have hidx : idx = 0 := by
        rw [hrank] at h1
        omega
      subst hidx
      refine ⟨?_, ?_⟩
      · rw [hitnr]
        simp
      · rw [hdiff, if_pos hlen, hsc]
    · intro ms hpg hc hms h1
      subst hc
      subst hpg
      have hidx : idx = 0 := by
        rw [hrank] at h1
        omega
      subst hidx
      have hrows : pickerRankedRows false (some ms) (queryWindow tf now) events
          = sortDesc (aggLower (memberEvents ms
              (eventsInWindow (queryWindow tf now) events))) := by
        simp [pickerRankedRows, hms]
      rcases findIdx?_some_zero _ _ hfind with ⟨x, xs, hxs, hpx⟩
      have hx_mem : x ∈ aggLower (memberEvents ms
          (eventsInWindow (queryWindow tf now) events)) := by
        have hx1 : x ∈ pickerRankedRows false (some ms) (queryWindow tf now) events := by
          rw [hxs]
          exact List.mem_cons_self x xs
        rw [hrows] at hx1
        exact (mem_sortDesc _).mp hx1
      rcases List.mem_map.mp hx_mem with ⟨k, hk, hxk⟩
      have hklow : lowerStr x.picker_id = k := by
        rw [← hxk]
        exact lowerStr_picker_aggLowerRow hk
      have hkpl : k = lowerStr pid := by
        have hb := beq_iff_eq.mp hpx
        rw [hklow] at hb
        exact hb
      have hxip : x.items_picked
          = (((eventsInWindow (queryWindow tf now) events).filter
              (fun e => lowId e == lowerStr pid)).filter isPicked).length := by
        rw [← hxk, aggLowerRow_member_own hk, hkpl]
      rw [hdiff, if_pos hlen, hxs]
      show (x.items_picked : Int)
          - ((((eventsInWindow (queryWindow tf now) events).filter
              (fun e => lowId e == lowerStr pid)).filter isPicked).length : Int) = 0
      rw [hxip]
      omega
    · intro h2
      have hidx : 1 ≤ idx := by
        rw [hrank] at h2
        omega
      refine ⟨?_, ?_⟩
      · rw [hitnr, if_pos (by omega), hrank, hsc]
        have harith : idx + 1 - 2 = idx - 1 := by omega
        rw [harith]
      · rw [hdiff, if_pos hlen, hsc]

/-- C6 amended witness: in a two-member SQLite cohort where p2 scores 2 and p1
scores 1, p1 is at rank 2 with items_to_next_rank = 2 and
difference_from_first = 1; and alone in a one-member SQLite cohort p1 at
rank 1 has difference_from_first = 0. -/
theorem claim_next_rank_formulas_amended_witness :
    (pickerApiStats false "p1" (some ["p1", "p2"]) "today" 43200000000
      [⟨"p2", "COMPLETED", "a", 1000000⟩, ⟨"p2", "COMPLETED", "b", 2000000⟩,
       ⟨"p1", "COMPLETED", "c", 3000000⟩]).items_to_next_rank = 2
    ∧ (pickerApiStats false "p1" (some ["p1", "p2"]) "today" 43200000000
      [⟨"p2", "COMPLETED", "a", 1000000⟩, ⟨"p2", "COMPLETED", "b", 2000000⟩,
       ⟨"p1", "COMPLETED", "c", 3000000⟩]).difference_from_first = 1
    ∧ (pickerApiStats false "p1" (some ["p1"]) "today" 43200000000
      [⟨"p1", "COMPLETED", "c", 3000000⟩]).difference_from_first = 0 := by
  have h3 := (claim_next_rank_formulas_amended false "p1" (some ["p1", "p2"]) "today"
    43200000000
    [⟨"p2", "COMPLETED", "a", 1000000⟩, ⟨"p2", "COMPLETED", "b", 2000000⟩,
     ⟨"p1", "COMPLETED", "c", 3000000⟩]).2.2 (by decide)
  have h1 := (claim_next_rank_formulas_amended false "p1" (some ["p1"]) "today" 43200000000
    [⟨"p1", "COMPLETED", "c", 3000000⟩]).2.1 ["p1"] rfl rfl (by decide) (by decide)
  refine ⟨?_, ?_, h1⟩
  · rw [h3.1]
    decide
  · rw [h3.2]
    decide

/-- C4 counterexample: two qualifying events differing only in the case of
picker_id (CA.1 and ca.1) produce two entries — not one — both in the
no-cohort leaderboard aggregate (grouping key (LOWER(picker_id), picker_id),
same query on either backend) and in the USE_POSTGRES cohort-scoped
supervisor rankings, whose query groups by the same pair; all of them belong
to the same case-insensitive picker. -/
theorem claim_case_insensitive_counterexample :
    (pickerRankedRows false none (queryWindow "today" 43200000000)
      [⟨"CA.1", "COMPLETED", "x1", 1000000⟩, ⟨"ca.1", "COMPLETED", "x2", 1100000⟩]).length = 2
    ∧ ((pickerRankedRows false none (queryWindow "today" 43200000000)
      [⟨"CA.1", "COMPLETED", "x1", 1000000⟩, ⟨"ca.1", "COMPLETED", "x2", 1100000⟩]).map
        (fun r => lowerStr r.picker_id)) = ["ca.1", "ca.1"]
    ∧ (supervisorApiRankings true "1" [⟨"CA.1", "picker", some 1⟩] "today" 43200000000
      [⟨"CA.1", "COMPLETED", "x1", 1000000⟩,
       ⟨"ca.1", "COMPLETED", "x2", 1100000⟩]).rankings.length = 2
    ∧ (supervisorApiRankings false "1" [⟨"CA.1", "picker", some 1⟩] "today" 43200000000
      [⟨"CA.1", "COMPLETED", "x1", 1000000⟩,
       ⟨"ca.1", "COMPLETED", "x2", 1100000⟩]).rankings.length = 1 := by
  refine ⟨?_, ?_, ?_, ?_⟩ <;> decide

/-- C4 amended: grouping by LOWER(picker_id) alone — used by the SQLite
cohort-scoped aggregates and by every AVG subquery on both backends — is
case-insensitive: one row per lowercased id, with the qualifying events of
all case variants summed into its score; and the single-picker match is
case-insensitive in the supplied identifier on either backend.  The
USE_POSTGRES cohort aggregates and the no-cohort leaderboard instead group
by (LOWER(picker_id), picker_id) and present case variants as separate
entries (see the counterexample). -/
theorem claim_case_insensitive_amended :
    (∀ es : List Event, ((aggLower es).map (fun r => lowerStr r.picker_id)).Nodup)
    ∧ (∀ (es : List Event) (r : AggRow), r ∈ aggLower es →
        r.items_picked
          = (es.filter (fun e => isPicked e && (lowId e == lowerStr r.picker_id))).length)
    ∧ (∀ usePostgres pid1 pid2 cohort tf now events, lowerStr pid1 = lowerStr pid2 →
        pickerApiStats usePostgres pid1 cohort tf now events
          = pickerApiStats usePostgres pid2 cohort tf now events) := by
  refine ⟨?_, ?_, ?_⟩
  · intro es
    have h2 : ∀ k ∈ dedupFirst (es.map lowId),
        lowerStr (aggLowerRow es k).picker_id = id k :=
      fun k hk => lowerStr_picker_aggLowerRow hk
    rw [aggLower, List.map_map]
    rw [show ((fun r => lowerStr r.picker_id) ∘ aggLowerRow es)
        = (fun k => lowerStr (aggLowerRow es k).picker_id) from rfl]
    rw [List.map_congr_left h2, List.map_id]
    exact dedupFirst_nodup _
  · intro es r hr
    rcases List.mem_map.mp hr with ⟨k, hk, rfl⟩
    rw [lowerStr_picker_aggLowerRow hk]
    show ((groupL es k).filter isPicked).length = _
    rw [groupL, List.filter_filter]
  · intro usePostgres pid1 pid2 cohort tf now events h
    show pickerStatsLow usePostgres (lowerStr pid1) cohort tf now events
      = pickerStatsLow usePostgres (lowerStr pid2) cohort tf now events
    rw [h]

/-- C4 amended witness: Ca.123 and ca.123 receive identical single-picker
responses. -/
theorem claim_case_insensitive_amended_witness :
    pickerApiStats false "Ca.123" none "today" 43200000000
      [⟨"ca.123", "COMPLETED", "a", 1000000⟩]
      = pickerApiStats false "ca.123" none "today" 43200000000
      [⟨"ca.123", "COMPLETED", "a", 1000000⟩] :=
  claim_case_insensitive_amended.2.2 false "Ca.123" "ca.123" none "today" 43200000000
    [⟨"ca.123", "COMPLETED", "a", 1000000⟩] (by decide)

/-- C7: on either backend, an empty member set yields the empty rankings
payload (empty list, mean 0, total 0) independently of the contents of the
event table, and the CSV download is the header-only table; neither is an
error. -/
theorem claim_empty_scope (usePostgres : Bool) (selector : String) (users : List User)
    (tf : String) (now : Int) (events : List Event)
    (h : cohortMembers (parseCohort selector) users = []) :
    supervisorApiRankings usePostgres selector users tf now events
      = ⟨[], ⟨0, 0⟩, 0, cohortEcho (parseCohort selector)⟩
    ∧ supervisorApiRankings usePostgres selector users tf now events
      = supervisorApiRankings usePostgres selector users tf now []
    ∧ supervisorDownloadTable usePostgres selector users tf now events = (csvHeader, []) := by
  have hemp : (cohortMembers (parseCohort selector) users).isEmpty = true := by
    rw [h]
    rfl
  have hcore : ∀ evs : List Event,
      supervisorRankingsCore usePostgres (cohortMembers (parseCohort selector) users) tf now evs
        = ([], ⟨0, 0⟩) := by
    intro evs
    rw [supervisorRankingsCore, if_pos hemp]
  refine ⟨?_, ?_, supervisorDownloadTable_empty usePostgres hemp tf now events⟩
  · show SupervisorOut.mk
        (supervisorRankingsCore usePostgres (cohortMembers (parseCohort selector) users) tf now events).1
        (supervisorRankingsCore usePostgres (cohortMembers (parseCohort selector) users) tf now events).2
        (supervisorRankingsCore usePostgres (cohortMembers (parseCohort selector) users) tf now events).1.length
        (cohortEcho (parseCohort selector)) = _
    rw [hcore events]
    rfl
  · show SupervisorOut.mk
        (supervisorRankingsCore usePostgres (cohortMembers (parseCohort selector) users) tf now events).1
        (supervisorRankingsCore usePostgres (cohortMembers (parseCohort selector) users) tf now events).2
        (supervisorRankingsCore usePostgres (cohortMembers (parseCohort selector) users) tf now events).1.length
        (cohortEcho (parseCohort selector))
      = SupervisorOut.mk
        (supervisorRankingsCore usePostgres (cohortMembers (parseCohort selector) users) tf now []).1
        (supervisorRankingsCore usePostgres (cohortMembers (parseCohort selector) users) tf now []).2
        (supervisorRankingsCore usePostgres (cohortMembers (parseCohort selector) users) tf now []).1.length
        (cohortEcho (parseCohort selector))
    rw [hcore events, hcore []]

/-- C7 witness: cohort 5 with an empty roster returns the empty payload and a
header-only CSV even though the event table is nonempty. -/
theorem claim_empty_scope_witness :
    supervisorApiRankings false "5" [⟨"P1", "picker", some 1⟩] "today" 43200000000
      [⟨"P1", "COMPLETED", "a", 1000000⟩]
      = ⟨[], ⟨0, 0⟩, 0, cohortEcho (parseCohort "5")⟩
    ∧ supervisorDownloadTable true "5" [⟨"P1", "picker", some 1⟩] "today" 43200000000
      [⟨"P1", "COMPLETED", "a", 1000000⟩] = (csvHeader, []) :=
  ⟨(claim_empty_scope false "5" [⟨"P1", "picker", some 1⟩] "today" 43200000000
      [⟨"P1", "COMPLETED", "a", 1000000⟩] (by decide)).1,
   (claim_empty_scope true "5" [⟨"P1", "picker", some 1⟩] "today" 43200000000
      [⟨"P1", "COMPLETED", "a", 1000000⟩] (by decide)).2.2⟩

/-- C2 counterexample: in the spec's scenario (P1 completes twice, P2 only
loses an item, P3 completes once) the mean is 1 — the average over the three
pickers with in-window events, P2 included with score 0 — not 1.5 over
{P1, P3} as claimed. -/
theorem claim_scope_mean_counterexample :
    (supervisorApiRankings false "1"
      [⟨"P1", "picker", some 1⟩, ⟨"P2", "picker", some 1⟩, ⟨"P3", "picker", some 1⟩]
      "today" 43200000000
      [⟨"P1", "COMPLETED", "pl1", 1000000⟩, ⟨"P1", "COMPLETED", "pl1", 1500000⟩,
       ⟨"P2", "ITEM_NOT_FOUND", "pl2", 2000000⟩, ⟨"P3", "COMPLETED", "pl3", 3000000⟩]).avg.q = 1
    ∧ ¬ ((supervisorApiRankings false "1"
      [⟨"P1", "picker", some 1⟩, ⟨"P2", "picker", some 1⟩, ⟨"P3", "picker", some 1⟩]
      "today" 43200000000
      [⟨"P1", "COMPLETED", "pl1", 1000000⟩, ⟨"P1", "COMPLETED", "pl1", 1500000⟩,
       ⟨"P2", "ITEM_NOT_FOUND", "pl2", 2000000⟩,
       ⟨"P3", "COMPLETED", "pl3", 3000000⟩]).avg.q = 3 / 2) := by
  have h : (supervisorApiRankings false "1"
      [⟨"P1", "picker", some 1⟩, ⟨"P2", "picker", some 1⟩, ⟨"P3", "picker", some 1⟩]
      "today" 43200000000
      [⟨"P1", "COMPLETED", "pl1", 1000000⟩, ⟨"P1", "COMPLETED", "pl1", 1500000⟩,
       ⟨"P2", "ITEM_NOT_FOUND", "pl2", 2000000⟩,
       ⟨"P3", "COMPLETED", "pl3", 3000000⟩]).avg = ⟨3, 3⟩ := by decide
  rw [h]
  constructor
  · show ((3 : Nat) : ℚ) / ((3 : Nat) : ℚ) = 1
    norm_num
  · show ¬ (((3 : Nat) : ℚ) / ((3 : Nat) : ℚ) = 3 / 2)
    norm_num

/-- C2 amended: on either backend, the scope mean is the average of score over
every picker with at least one in-window event of any status (grouped
case-insensitively) — pickers whose only events are non-qualifying contribute
score 0 to the mean — and it is 0 when that set is empty (in ℚ, x / 0 = 0
covers the empty case). -/
theorem claim_scope_mean_amended :
    (∀ es : List Event,
        (meanAcc (aggLower es)).sum = (es.filter isPicked).length
        ∧ (meanAcc (aggLower es)).cnt = (dedupFirst (es.map lowId)).length)
    ∧ (∀ usePostgres selector users tf now events,
        (supervisorApiRankings usePostgres selector users tf now events).avg.q
          = (((memberEvents (cohortMembers (parseCohort selector) users)
                (eventsInWindow (queryWindow tf now) events)).filter isPicked).length : ℚ)
            / ((dedupFirst ((memberEvents (cohortMembers (parseCohort selector) users)
                (eventsInWindow (queryWindow tf now) events)).map lowId)).length : ℚ))
    ∧ (∀ usePostgres pid cohort tf now events, ∃ es : List Event,
        pickerMeanRows cohort (queryWindow tf now) events = aggLower es
        ∧ (pickerApiStats usePostgres pid cohort tf now events).avg.q
            = ((es.filter isPicked).length : ℚ) / ((dedupFirst (es.map lowId)).length : ℚ)) := by
  have hbase : ∀ es : List Event,
      (meanAcc (aggLower es)).sum = (es.filter isPicked).length
      ∧ (meanAcc (aggLower es)).cnt = (dedupFirst (es.map lowId)).length := by
    intro es
    constructor
    · exact sum_score_aggLower es
    · show (aggLower es).length = (dedupFirst (es.map lowId)).length
      rw [aggLower, List.length_map]
  have hq : ∀ es : List Event,
      (meanAcc (aggLower es)).q
        = ((es.filter isPicked).length : ℚ) / ((dedupFirst (es.map lowId)).length : ℚ) := by
    intro es
    show ((meanAcc (aggLower es)).sum : ℚ) / ((meanAcc (aggLower es)).cnt : ℚ) = _
    rw [(hbase es).1, (hbase es).2]
  refine ⟨hbase, ?_, ?_⟩
  · intro usePostgres selector users tf now events
    by_cases hms : (cohortMembers (parseCohort selector) users).isEmpty = true
    · have hnil : cohortMembers (parseCohort selector) users = [] :=
        List.isEmpty_iff.mp hms
      have hme : memberEvents (cohortMembers (parseCohort selector) users)
          (eventsInWindow (queryWindow tf now) events) = [] := by
        rw [hnil, memberEvents, List.eq_nil_iff_forall_not_mem]
        intro e he
        rcases List.mem_filter.mp he with ⟨-, hb⟩
        exact absurd (of_decide_eq_true hb) (List.not_mem_nil _)
      have havg : (supervisorApiRankings usePostgres selector users tf now events).avg
          = ⟨0, 0⟩ := by
        show (supervisorRankingsCore usePostgres (cohortMembers (parseCohort selector) users)
          tf now events).2 = ⟨0, 0⟩
        rw [supervisorRankingsCore, if_pos hms]
      rw [havg, hme]
      show ((0 : Nat) : ℚ) / ((0 : Nat) : ℚ) = _
      simp
    · have hfalse : (cohortMembers (parseCohort selector) users).isEmpty = false := by
        cases h2 : (cohortMembers (parseCohort selector) users).isEmpty with
        | false => rfl
        | true => exact absurd h2 hms
      have havg : (supervisorApiRankings usePostgres selector users tf now events).avg
          = meanAcc (aggLower (memberEvents (cohortMembers (parseCohort selector) users)
              (eventsInWindow (queryWindow tf now) events))) := by
        show (supervisorRankingsCore usePostgres (cohortMembers (parseCohort selector) users)
          tf now events).2 = _
        rw [supervisorRankingsCore_nonempty usePostgres hfalse tf now events]
      rw [havg, hq]
  · intro usePostgres pid cohort tf now events
    cases cohort with
    | none =>
      refine ⟨eventsInWindow (queryWindow tf now) events, rfl, ?_⟩
      show (meanAcc (pickerMeanRows none (queryWindow tf now) events)).q = _
      exact hq _
    | some ms =>
      by_cases hms : ms.isEmpty = true
      · refine ⟨eventsInWindow (queryWindow tf now) events, ?_, ?_⟩
        · simp [pickerMeanRows, hms]
        · show (meanAcc (pickerMeanRows (some ms) (queryWindow tf now) events)).q = _
          rw [show pickerMeanRows (some ms) (queryWindow tf now) events
            = aggLower (eventsInWindow (queryWindow tf now) events)
            by simp [pickerMeanRows, hms]]
          exact hq _
      · refine ⟨memberEvents ms (eventsInWindow (queryWindow tf now) events), ?_, ?_⟩
        · simp [pickerMeanRows, hms]
        · show (meanAcc (pickerMeanRows (some ms) (queryWindow tf now) events)).q = _
          rw [show pickerMeanRows (some ms) (queryWindow tf now) events
            = aggLower (memberEvents ms (eventsInWindow (queryWindow tf now) events))
            by simp [pickerMeanRows, hms]]
          exact hq _

/-- C8: the all_time filter resolves to the fixed window
[2020-01-01T00:00:00, now] (epoch 0 on our timeline); any event stamped
before the epoch floor fails the window test and therefore leaves every
all_time ranking unchanged when removed, on either backend. -/
theorem claim_all_time_floor (now : Int) :
    resolveWindow "all_time" now = (epoch2020, now)
    ∧ (∀ t : Int, t < epoch2020 → inWindow (queryWindow "all_time" now) t = false)
    ∧ (∀ (usePostgres : Bool) (ms : List String) (events : List Event),
        supervisorRankingsCore usePostgres ms "all_time" now events
          = supervisorRankingsCore usePostgres ms "all_time" now
              (events.filter (fun e => decide (epoch2020 ≤ e.updated_at)))) := by
  have hres : resolveWindow "all_time" now = (epoch2020, now) := rfl
  have hstart : (queryWindow "all_time" now).1 = epoch2020 := by
    show (resolveWindow "all_time" now).1
      - ((resolveWindow "all_time" now).1).emod usPerSec = epoch2020
    rw [hres]
    show epoch2020 - epoch2020.emod usPerSec = epoch2020
    decide
  refine ⟨hres, ?_, ?_⟩
  · intro t ht
    rw [inWindow, hstart]
    have hd : decide (epoch2020 ≤ t) = false := by
      rw [decide_eq_false_iff_not]
      omega
    rw [hd, Bool.false_and]
  · intro usePostgres ms events
    have hfilt : eventsInWindow (queryWindow "all_time" now)
        (events.filter (fun e => decide (epoch2020 ≤ e.updated_at)))
          = eventsInWindow (queryWindow "all_time" now) events := by
      rw [eventsInWindow, eventsInWindow, List.filter_filter]
      refine List.filter_congr ?_
      intro e _
      cases hin : inWindow (queryWindow "all_time" now) e.updated_at with
      | false => rw [Bool.false_and]
      | true =>
        rw [Bool.true_and]
        rw [inWindow, hstart, Bool.and_eq_true, decide_eq_true_eq] at hin
        exact decide_eq_true hin.1
    rw [supervisorRankingsCore, supervisorRankingsCore, hfilt]

/-- C8 witness: an event dated one day before the 2020 floor is outside the
all_time window, and dropping it leaves a concrete ranking query unchanged. -/
theorem claim_all_time_floor_witness :
    resolveWindow "all_time" 217200000000 = (epoch2020, 217200000000)
    ∧ inWindow (queryWindow "all_time" 217200000000) (-86400000000) = false
    ∧ supervisorRankingsCore false ["p1"] "all_time" 217200000000
        [⟨"p1", "COMPLETED", "a", -86400000000⟩, ⟨"p1", "COMPLETED", "b", 1000000⟩]
      = supervisorRankingsCore false ["p1"] "all_time" 217200000000
        (([⟨"p1", "COMPLETED", "a", -86400000000⟩,
           ⟨"p1", "COMPLETED", "b", 1000000⟩] : List Event).filter
          (fun e => decide (epoch2020 ≤ e.updated_at))) :=
  ⟨(claim_all_time_floor 217200000000).1,
   (claim_all_time_floor 217200000000).2.1 (-86400000000) (by decide),
   (claim_all_time_floor 217200000000).2.2 false ["p1"]
     [⟨"p1", "COMPLETED", "a", -86400000000⟩, ⟨"p1", "COMPLETED", "b", 1000000⟩]⟩

/-- C9 counterexample: with now at 01:00 of day 2, the yesterday window
resolves to [day 1 00:00:00, day 1 23:59:59.999999], and the instant
23:59:59.999999 of day 1 lies inside that resolved window — yet the query,
whose bounds are serialized at second precision (23:59:59), does not count an
event at that instant: it is excluded from the aggregate on either backend. -/
theorem claim_yesterday_eod_counterexample :
    resolveWindow "yesterday" 176400000000 = (86400000000, 172799999999)
    ∧ ((86400000000 : Int) ≤ 172799999999 ∧ (172799999999 : Int) ≤ 172799999999)
    ∧ inWindow (queryWindow "yesterday" 176400000000) 172799999999 = false
    ∧ (supervisorRankingsCore false ["p1"] "yesterday" 176400000000
        [⟨"p1", "COMPLETED", "x", 172799999999⟩]).1 = []
    ∧ (supervisorRankingsCore true ["p1"] "yesterday" 176400000000
        [⟨"p1", "COMPLETED", "x", 172799999999⟩]).1 = [] := by
  refine ⟨?_, ?_, ?_, ?_, ?_⟩ <;> decide

theorem midnight_dvd_sec (y : Int) : ∃ k : Int, midnight y = usPerSec * k := by
  have hD : usPerDay ∣ (y - y.emod usPerDay) := Int.dvd_sub_of_emod_eq rfl
  have hSD : usPerSec ∣ usPerDay := ⟨86400, by decide⟩
  rcases dvd_trans hSD hD with ⟨k, hk⟩
  exact ⟨k, hk⟩

theorem queryWindow_yesterday (now : Int) :
    queryWindow "yesterday" now
      = (midnight (now - usPerDay), midnight (now - usPerDay) + (usPerDay - usPerSec)) := by
  obtain ⟨k, hk⟩ := midnight_dvd_sec (now - usPerDay)
  have hres : resolveWindow "yesterday" now
      = (midnight (now - usPerDay), endOfDay (now - usPerDay)) := rfl
  show ((resolveWindow "yesterday" now).1
          - ((resolveWindow "yesterday" now).1).emod usPerSec,
        (resolveWindow "yesterday" now).2
          - ((resolveWindow "yesterday" now).2).emod usPerSec) = _
  rw [hres]
  show (midnight (now - usPerDay) - (midnight (now - usPerDay)).emod usPerSec,
        endOfDay (now - usPerDay) - (endOfDay (now - usPerDay)).emod usPerSec) = _
  simp only [endOfDay]
  rw [hk]
  simp only [usPerSec, usPerDay]
  have h1 : ((1000000 * k : Int)).emod 1000000 = 0 := Int.mul_emod_right _ _
  have h2 : ((1000000 * k + 86400000000 - 1 : Int)).emod 1000000 = 999999 := by
    show (1000000 * k + 86400000000 - 1 : Int) % 1000000 = 999999
    have hre : (1000000 * k + 86400000000 - 1 : Int) = 999999 + 1000000 * (k + 86399) := by
      ring
    rw [hre, Int.add_mul_emod_self_left]
    decide
  rw [Prod.mk.injEq]
  refine ⟨?_, ?_⟩
  · rw [h1]
    omega
  · rw [h2]
    omega

/-- C9 amended: the yesterday filter resolves to
[midnight of the previous day, 23:59:59.999999 of the previous day], but the
bounds are serialized at second precision, so an event is counted exactly
when its timestamp lies in [midnight, 23:59:59] of the previous day — events
in the final fractional second (23:59:59 exclusive to 23:59:59.999999) are
excluded from the aggregates. -/
theorem claim_yesterday_eod_amended (now t : Int) :
    resolveWindow "yesterday" now
      = (midnight (now - usPerDay), midnight (now - usPerDay) + usPerDay - 1)
    ∧ (inWindow (queryWindow "yesterday" now) t = true
        ↔ midnight (now - usPerDay) ≤ t
          ∧ t ≤ midnight (now - usPerDay) + (usPerDay - usPerSec)) := by
  refine ⟨rfl, ?_⟩
  rw [queryWindow_yesterday, inWindow, Bool.and_eq_true, decide_eq_true_eq,
    decide_eq_true_eq]

/-- C9 amended witness: an event at exactly 23:59:59 of the previous day is
counted; the window arithmetic matches at a concrete now. -/
theorem claim_yesterday_eod_amended_witness :
    resolveWindow "yesterday" 176400000000
      = (midnight (176400000000 - usPerDay), midnight (176400000000 - usPerDay) + usPerDay - 1)
    ∧ inWindow (queryWindow "yesterday" 176400000000) 172799000000 = true := by
  have h := claim_yesterday_eod_amended 176400000000 172799000000
  refine ⟨h.1, h.2.mpr ?_⟩
  refine ⟨?_, ?_⟩ <;> decide

/-- C10: on either backend, a cohort selector that is neither 'all' nor a
parseable integer is silently coerced to cohort 1: the rankings and CSV
download responses are identical to those for selector '1', with no error. -/
theorem claim_cohort_fallback (usePostgres : Bool) (s : String) (h1 : s ≠ "all")
    (h2 : pythonInt s = none) (users : List User) (tf : String) (now : Int)
    (events : List Event) :
    supervisorApiRankings usePostgres s users tf now events
      = supervisorApiRankings usePostgres "1" users tf now events
    ∧ supervisorDownloadTable usePostgres s users tf now events
      = supervisorDownloadTable usePostgres "1" users tf now events := by
  have hp : parseCohort s = CohortSel.num 1 := by
    rw [parseCohort, if_neg ?_, h2]
    intro hb
    exact h1 (beq_iff_eq.mp hb)
  have hp1 : parseCohort "1" = CohortSel.num 1 := by decide
  constructor
  · unfold supervisorApiRankings
    rw [hp, hp1]
  · unfold supervisorDownloadTable
    rw [hp, hp1]

/-- C10 witness: the malformed selectors 'abc' (SQLite) and '2.5' (Postgres)
behave exactly like cohort 1. -/
theorem claim_cohort_fallback_witness :
    supervisorApiRankings false "abc" [⟨"P1", "picker", some 1⟩] "today" 43200000000
      [⟨"P1", "COMPLETED", "a", 1000000⟩]
      = supervisorApiRankings false "1" [⟨"P1", "picker", some 1⟩] "today" 43200000000
      [⟨"P1", "COMPLETED", "a", 1000000⟩]
    ∧ supervisorDownloadTable true "2.5" [⟨"P1", "picker", some 1⟩] "today" 43200000000
      [⟨"P1", "COMPLETED", "a", 1000000⟩]
      = supervisorDownloadTable true "1" [⟨"P1", "picker", some 1⟩] "today" 43200000000
      [⟨"P1", "COMPLETED", "a", 1000000⟩] :=
  ⟨(claim_cohort_fallback false "abc" (by decide) (by decide) [⟨"P1", "picker", some 1⟩]
      "today" 43200000000 [⟨"P1", "COMPLETED", "a", 1000000⟩]).1,
   (claim_cohort_fallback true "2.5" (by decide) (by decide) [⟨"P1", "picker", some 1⟩]
      "today" 43200000000 [⟨"P1", "COMPLETED", "a", 1000000⟩]).2⟩
